import Mathlib

/-!
# Crypto price tracker: the client-side view engine

A shallow embedding of `src/components/CryptoTable.jsx` (view state, sort step,
filter step, action handlers) and of the formatters of
`src/components/CryptoRow.jsx`, and the theorems settled about them.

Conventions of the embedding
* A JavaScript number is a `JSNum`: `NaN`, a finite value (a rational) or one of
  the two infinities. A parsed literal and a quotient are rounded to the
  nearest binary64 value by `roundBinary64`; the sign of zero is not modelled.
  The difference in the sort comparator is kept exact: only its sign is used,
  and that is the sign of the binary64 difference.
* A nullable numeric attribute of an asset is an `Option ℚ` (`none` is `null`).
* Language builtins that the component calls are modelled after ECMAScript:
  `parseFloat`, `String.prototype.includes`, `Array.prototype.filter`,
  `Array.prototype.sort` (a stable insertion that asks the comparator whether
  the new element is strictly smaller, as the engine's binary insertion does).
  `toLowerCase` and `localeCompare` depend on Unicode and locale tables and are
  taken as parameters.
* `Number.prototype.toFixed` follows ECMAScript on the exact value of the
  number; for a magnitude of `10^21` or more it returns Number::toString, taken
  as the parameter `numberToString`. `Intl.NumberFormat(...).format` is taken as the
  parameter `numberFormat`.
-/

namespace CryptoTracker

/-! ## JavaScript values -/

/-- A JavaScript number. -/
inductive JSNum where
  | nan
  | num (q : ℚ)
  | posInf
  | negInf
  deriving DecidableEq

/-- The relational operator `x < y` with a finite left operand. -/
def jsLt (x : ℚ) : JSNum → Bool
  | .nan => false
  | .num q => decide (x < q)
  | .posInf => true
  | .negInf => false

/-- The relational operator `x > y` with a finite left operand. -/
def jsGt (x : ℚ) : JSNum → Bool
  | .nan => false
  | .num q => decide (q < x)
  | .posInf => false
  | .negInf => true

/-- The relational operator `x >= y` with a finite left operand. -/
def jsGe (x : ℚ) : JSNum → Bool
  | .nan => false
  | .num q => decide (q ≤ x)
  | .posInf => false
  | .negInf => true

/-- The relational operator `x <= y` with a finite left operand. -/
def jsLe (x : ℚ) : JSNum → Bool
  | .nan => false
  | .num q => decide (x ≤ q)
  | .posInf => true
  | .negInf => false

/-- Truthiness of a string: only the empty string is falsy. -/
def truthy (s : String) : Bool := s != ""

/-- ToNumber on a nullable number: `null` converts to `+0`. -/
def toNumber : Option ℚ → ℚ
  | none => 0
  | some q => q

/-! ## Rounding to binary64 -/

/-- The integer nearest to a non-negative rational, the even one on a tie. -/
def roundHalfEven (m : ℚ) : ℤ :=
  if m - ⌊m⌋ < 1 / 2 then ⌊m⌋
  else if 1 / 2 < m - ⌊m⌋ then ⌊m⌋ + 1
  else if ⌊m⌋ % 2 = 0 then ⌊m⌋
  else ⌊m⌋ + 1

/-- The Number value of a real number: the nearest binary64 value, ties to the
even significand. With `e` the binary exponent of `|x|` (at least -1022, so
that small values fall on the subnormal grid), the grid step is `2^(e - 52)`;
a rounded magnitude of `2^1024` or more is an infinity. -/
def roundBinary64 (x : ℚ) : JSNum :=
  if x = 0 then .num 0
  else
    let e := max (Int.log 2 |x|) (-1022)
    let ulp : ℚ := 2 ^ (e - 52)
    let y : ℚ := (roundHalfEven (|x| / ulp) : ℚ) * ulp
    if (2 : ℚ) ^ (1024 : ℤ) ≤ y then (if x < 0 then .negInf else .posInf)
    else .num (if x < 0 then -y else y)

/-- Unary minus. -/
def JSNum.neg : JSNum → JSNum
  | .nan => .nan
  | .num q => .num (-q)
  | .posInf => .negInf
  | .negInf => .posInf

/-! ## parseFloat -/

/-- WhiteSpace and LineTerminator code points, stripped by `parseFloat`. -/
def isStrWhiteSpaceChar (c : Char) : Bool :=
  let n := c.toNat
  n = 9 || n = 10 || n = 11 || n = 12 || n = 13 || n = 32 || n = 160 || n = 5760 ||
  (8192 ≤ n && n ≤ 8202) || n = 8232 || n = 8233 || n = 8239 || n = 8287 ||
  n = 12288 || n = 65279

/-- Value of a run of decimal digits. -/
def digitsValue (ds : List Char) : Nat :=
  ds.foldl (fun n c => 10 * n + (c.toNat - 48)) 0

/-- ExponentPart of a StrDecimalLiteral: `e` or `E`, an optional sign and at
least one digit; anything else is not part of the literal and counts as 0. -/
def exponentPart : List Char → Int
  | [] => 0
  | c :: r =>
    if c = 'e' || c = 'E' then
      match r with
      | '-' :: d =>
        let ds := d.takeWhile Char.isDigit
        if ds.isEmpty then 0 else - (digitsValue ds : Int)
      | '+' :: d =>
        let ds := d.takeWhile Char.isDigit
        if ds.isEmpty then 0 else (digitsValue ds : Int)
      | d =>
        let ds := d.takeWhile Char.isDigit
        if ds.isEmpty then 0 else (digitsValue ds : Int)
    else 0

/-- Scale a rational by a power of ten. -/
def scale10 (m : ℚ) (e : Int) : ℚ :=
  if 0 ≤ e then m * (10 : ℚ) ^ e.toNat else m / (10 : ℚ) ^ (-e).toNat

/-- The unsigned part of a StrDecimalLiteral prefix: `Infinity`, or digits with
an optional fraction and exponent, as the exact decimal value; `none` when no
prefix is a literal. -/
def unsignedLiteral (cs : List Char) : Option (Option ℚ) :=
  if "Infinity".data.isPrefixOf cs then some none
  else
    let ip := cs.takeWhile Char.isDigit
    let r1 := cs.dropWhile Char.isDigit
    match r1 with
    | '.' :: r =>
      let fp := r.takeWhile Char.isDigit
      let r2 := r.dropWhile Char.isDigit
      if ip.isEmpty && fp.isEmpty then none
      else some (some (scale10 ((digitsValue (ip ++ fp) : ℚ) / (10 : ℚ) ^ fp.length)
        (exponentPart r2)))
    | r2 =>
      if ip.isEmpty then none
      else some (some (scale10 (digitsValue ip : ℚ) (exponentPart r2)))

/-- The global `parseFloat`: leading white space is skipped, the longest prefix
that is a decimal literal is read and its value rounded to binary64, and `NaN`
is returned when there is no such prefix. -/
def parseFloat (s : String) : JSNum :=
  let cs := s.data.dropWhile isStrWhiteSpaceChar
  match cs with
  | '-' :: r =>
    match unsignedLiteral r with
    | none => .nan
    | some none => .negInf
    | some (some q) => (roundBinary64 q).neg
  | '+' :: r =>
    match unsignedLiteral r with
    | none => .nan
    | some none => .posInf
    | some (some q) => roundBinary64 q
  | r =>
    match unsignedLiteral r with
    | none => .nan
    | some none => .posInf
    | some (some q) => roundBinary64 q

/-- The method `String.prototype.includes`: `t` occurs in `s` as a substring. -/
def includes (s t : String) : Bool :=
  s.data.tails.any (fun u => t.data.isPrefixOf u)

/-! ## Data model -/

/-- One asset record as the table reads it. The nullable attributes are the
percentage changes and the supplies. -/
structure Asset where
  id : String
  rank : ℚ
  name : String
  symbol : String
  logo : String
  price : ℚ
  percentChange1h : Option ℚ
  percentChange24h : Option ℚ
  percentChange7d : Option ℚ
  marketCap : ℚ
  volume24h : ℚ
  circulatingSupply : Option ℚ
  maxSupply : Option ℚ
  deriving DecidableEq

/-- The `filterOptions` state: four strings, as delivered by the input fields. -/
structure FilterOptions where
  priceMin : String
  priceMax : String
  percentChangeMin : String
  searchTerm : String
  deriving DecidableEq

/-! ## Filter step -/

/-- The callback of `sortedAssets.filter(asset => ...)` in `filteredAssets`. -/
def filterCallback (toLowerCase : String → String) (showOnlyFavorites : Bool)
    (favorites : List String) (filterOptions : FilterOptions) (asset : Asset) : Bool :=
  -- Filter by favorites
  if showOnlyFavorites && !favorites.contains asset.id then false
  -- Filter by price range
  else if truthy filterOptions.priceMin &&
      jsLt asset.price (parseFloat filterOptions.priceMin) then false
  else if truthy filterOptions.priceMax &&
      jsGt asset.price (parseFloat filterOptions.priceMax) then false
  -- Filter by percentage change
  else if truthy filterOptions.percentChangeMin &&
      jsLt (toNumber asset.percentChange24h) (parseFloat filterOptions.percentChangeMin) then false
  -- Filter by search term (name or symbol)
  else if truthy filterOptions.searchTerm &&
      !includes (toLowerCase asset.name) (toLowerCase filterOptions.searchTerm) &&
      !includes (toLowerCase asset.symbol) (toLowerCase filterOptions.searchTerm) then false
  else true

/-- The memoised `filteredAssets`: the filter applied to the sorted list. -/
def filteredAssets (toLowerCase : String → String) (sortedAssets : List Asset)
    (showOnlyFavorites : Bool) (favorites : List String) (filterOptions : FilterOptions) :
    List Asset :=
  sortedAssets.filter (filterCallback toLowerCase showOnlyFavorites favorites filterOptions)

/-! ## Sort step -/

/-- A property value read from an asset: `a[key]`. -/
inductive JSVal where
  | null
  | undefined
  | num (q : ℚ)
  | str (s : String)
  deriving DecidableEq

/-- A nullable number as a property value. -/
def ofNullable : Option ℚ → JSVal
  | none => .null
  | some q => .num q

/-- Property access `a[key]`; a name that is no attribute gives `undefined`. -/
def Asset.prop (a : Asset) (key : String) : JSVal :=
  if key = "id" then .str a.id
  else if key = "rank" then .num a.rank
  else if key = "name" then .str a.name
  else if key = "symbol" then .str a.symbol
  else if key = "logo" then .str a.logo
  else if key = "price" then .num a.price
  else if key = "percentChange1h" then ofNullable a.percentChange1h
  else if key = "percentChange24h" then ofNullable a.percentChange24h
  else if key = "percentChange7d" then ofNullable a.percentChange7d
  else if key = "marketCap" then .num a.marketCap
  else if key = "volume24h" then .num a.volume24h
  else if key = "circulatingSupply" then ofNullable a.circulatingSupply
  else if key = "maxSupply" then ofNullable a.maxSupply
  else .undefined

/-- The attribute names whose values are numbers (or null). -/
def numericKeys : List String :=
  ["rank", "price", "percentChange1h", "percentChange24h", "percentChange7d",
   "marketCap", "volume24h", "circulatingSupply", "maxSupply"]

/-- Sort direction, the strings `'asc'` and `'desc'` of `sortConfig.direction`. -/
inductive Direction where
  | asc
  | desc
  deriving DecidableEq

/-- The `sortConfig` state. -/
structure SortConfig where
  key : String
  direction : Direction
  deriving DecidableEq

/-- The subtraction `x - y` on property values that are not strings: `null`
converts to 0 and `undefined` to `NaN`. The comparator reaches it only after
`typeof` has excluded a string on the left, and both operands are the same
attribute of two assets, so a string operand (given `NaN` here) does not arise. -/
def jsSub : JSVal → JSVal → JSNum
  | .num x, .num y => .num (x - y)
  | .num x, .null => .num x
  | .null, .num y => .num (-y)
  | .null, .null => .num 0
  | _, _ => .nan

/-- The comparator passed to `sortableAssets.sort((a, b) => ...)`. Both values
are the same attribute of two assets, so in the string branch the other value
is a string too (any other value is given `NaN`). -/
def sortCompare (localeCompare : String → String → Int) (sortConfig : SortConfig)
    (a b : Asset) : JSNum :=
  -- Handle null values
  if a.prop sortConfig.key = .null then .num 1
  else if b.prop sortConfig.key = .null then .num (-1)
  -- Compare based on data type
  else
    match a.prop sortConfig.key with
    | .str s =>
      match b.prop sortConfig.key with
      | .str t =>
        if sortConfig.direction = .asc then .num (localeCompare s t)
        else .num (localeCompare t s)
      | _ => .nan
    | va =>
      if sortConfig.direction = .asc then jsSub va (b.prop sortConfig.key)
      else jsSub (b.prop sortConfig.key) va

/-- Whether a comparator result is negative (`NaN` is not). -/
def JSNum.isNeg : JSNum → Bool
  | .nan => false
  | .num q => decide (q < 0)
  | .posInf => false
  | .negInf => true

/-- One insertion of `Array.prototype.sort`: `x` goes before the first element
that the comparator puts strictly after it. -/
def insertSorted {α : Type} (cmp : α → α → JSNum) (x : α) : List α → List α
  | [] => [x]
  | y :: ys => if (cmp x y).isNeg then x :: y :: ys else y :: insertSorted cmp x ys

/-- The method `Array.prototype.sort(cmp)`: stable insertion, left to right. -/
def arraySort {α : Type} (cmp : α → α → JSNum) (l : List α) : List α :=
  l.foldl (fun acc x => insertSorted cmp x acc) []

/-- The memoised `sortedAssets`: a sorted copy of `assets` when a key is set. -/
def sortedAssets (localeCompare : String → String → Int) (assets : List Asset)
    (sortConfig : SortConfig) : List Asset :=
  if truthy sortConfig.key then arraySort (sortCompare localeCompare sortConfig) assets
  else assets

/-! ## View state and handlers -/

/-- The component state of `CryptoTable` (the `useState` cells). -/
structure ViewState where
  showOnlyFavorites : Bool
  sortConfig : SortConfig
  currentPage : Int
  itemsPerPage : Int
  filterOptions : FilterOptions
  isFilterOpen : Bool
  deriving DecidableEq

/-- The initial values of the `useState` cells. -/
def initialState : ViewState where
  showOnlyFavorites := false
  sortConfig := { key := "rank", direction := .asc }
  currentPage := 1
  itemsPerPage := 10
  filterOptions := { priceMin := "", priceMax := "", percentChangeMin := "", searchTerm := "" }
  isFilterOpen := false

/-- The handler `handlePageChange(page)`. -/
def handlePageChange (s : ViewState) (page : Int) : ViewState :=
  { s with currentPage := page }

/-- The Previous button: `disabled` when `currentPage === 1`, else
`handlePageChange(currentPage - 1)`. -/
def clickPrevious (s : ViewState) : ViewState :=
  if s.currentPage = 1 then s else handlePageChange s (s.currentPage - 1)

/-- The Next button: `handlePageChange(currentPage + 1)`. -/
def clickNext (s : ViewState) : ViewState :=
  handlePageChange s (s.currentPage + 1)

/-- The handler `requestSort(key)`. -/
def requestSort (s : ViewState) (key : String) : ViewState :=
  let direction :=
    if s.sortConfig.key = key && s.sortConfig.direction = .asc then Direction.desc
    else Direction.asc
  { s with sortConfig := { key := key, direction := direction } }

/-- The object spread of `handleFilterChange`: the field called `name` is
replaced by `value`. A name that is none of the four fields adds a property the
table never reads, so the four fields are kept. -/
def FilterOptions.update (prev : FilterOptions) (name value : String) : FilterOptions :=
  if name = "priceMin" then { prev with priceMin := value }
  else if name = "priceMax" then { prev with priceMax := value }
  else if name = "percentChangeMin" then { prev with percentChangeMin := value }
  else if name = "searchTerm" then { prev with searchTerm := value }
  else prev

/-- The handler `handleFilterChange(e)` with `e.target = { name, value }`. -/
def handleFilterChange (s : ViewState) (name value : String) : ViewState :=
  { s with filterOptions := s.filterOptions.update name value, currentPage := 1 }

/-- The handler `resetFilters()`. -/
def resetFilters (s : ViewState) : ViewState :=
  { s with
    filterOptions := { priceMin := "", priceMax := "", percentChangeMin := "", searchTerm := "" }
    showOnlyFavorites := false
    currentPage := 1 }

/-- The derived row list: `filteredAssets` computed from `sortedAssets`. -/
def derive (toLowerCase : String → String) (localeCompare : String → String → Int)
    (assets : List Asset) (favorites : List String) (s : ViewState) : List Asset :=
  filteredAssets toLowerCase (sortedAssets localeCompare assets s.sortConfig)
    s.showOnlyFavorites favorites s.filterOptions

/-! ## Formatters of `CryptoRow.jsx` -/

/-- ToString of a non-negative integer: its decimal digits, most significant
first. -/
def decimalDigits (n : Nat) : List Char :=
  if _h : n < 10 then [Nat.digitChar n]
  else decimalDigits (n / 10) ++ [Nat.digitChar (n % 10)]
decreasing_by omega

/-- The digit string of `toFixed` for `0 ≤ x < 10^21`: `n` is the integer with
`n / 10^f` closest to `x` (the larger one on a tie), its digits are padded with
zeros to at least `f + 1` and a point is put before the last `f` digits. -/
def fixedDigits (x : ℚ) (fractionDigits : Nat) : String :=
  let n := ⌊x * 10 ^ fractionDigits + 1 / 2⌋.toNat
  let m := decimalDigits n
  if fractionDigits = 0 then String.mk m
  else
    let m := List.replicate (fractionDigits + 1 - m.length) '0' ++ m
    String.mk (m.take (m.length - fractionDigits)) ++ "." ++
      String.mk (m.drop (m.length - fractionDigits))

/-- The method `Number.prototype.toFixed(fractionDigits)` on a finite value. A
negative value is written as "-" and the result for its negation; a magnitude
of `10^21` or more is written by Number::toString, whose digits depend on the
binary representation and are supplied as `numberToString`. -/
def toFixed (numberToString : ℚ → String) (x : ℚ) (fractionDigits : Nat) : String :=
  if x < 0 then
    if (10 : ℚ) ^ 21 ≤ -x then "-" ++ numberToString (-x)
    else "-" ++ fixedDigits (-x) fractionDigits
  else if (10 : ℚ) ^ 21 ≤ x then numberToString x
  else fixedDigits x fractionDigits

/-- The method `toFixed` on any number: a value that is not finite is written
by Number::toString. -/
def JSNum.toFixed (numberToString : ℚ → String) (x : JSNum) (fractionDigits : Nat) : String :=
  match x with
  | .nan => "NaN"
  | .num q => CryptoTracker.toFixed numberToString q fractionDigits
  | .posInf => "Infinity"
  | .negInf => "-Infinity"

/-- The comparison `x >= c` with a finite right operand. -/
def JSNum.ge (x : JSNum) (c : ℚ) : Bool :=
  match x with
  | .nan => false
  | .num q => decide (c ≤ q)
  | .posInf => true
  | .negInf => false

/-- The quotient `x / c` by a positive finite constant, rounded to binary64. -/
def JSNum.divBy (x : JSNum) (c : ℚ) : JSNum :=
  match x with
  | .nan => .nan
  | .num q => roundBinary64 (q / c)
  | .posInf => .posInf
  | .negInf => .negInf

/-- The function `Math.abs`. -/
def JSNum.abs : JSNum → JSNum
  | .nan => .nan
  | .num q => .num |q|
  | .posInf => .posInf
  | .negInf => .posInf

/-- The quotient `a / b` of two finite numbers, rounded to binary64; the
divisor is `+0` when it is zero. -/
def jsDiv (a b : ℚ) : JSNum :=
  if b = 0 then
    if a = 0 then .nan else if 0 < a then .posInf else .negInf
  else roundBinary64 (a / b)

/-- An argument of a formatter: `null`, `undefined` or a number. -/
inductive JSArg where
  | null
  | undefined
  | number (x : JSNum)
  deriving DecidableEq

/-- The options object that `formatPrice` passes to `Intl.NumberFormat`. -/
structure NumberFormatOptions where
  style : String
  currency : String
  minimumFractionDigits : Nat
  maximumFractionDigits : Nat
  deriving DecidableEq

/-- The options object literal of `formatPrice`. -/
def formatPriceOptions (price : ℚ) : NumberFormatOptions where
  style := "currency"
  currency := "USD"
  minimumFractionDigits := if price < 1 then 4 else 2
  maximumFractionDigits := if price < 1 then 6 else 2

/-- The function `formatPrice`; `numberFormat locale options value` stands for
`new Intl.NumberFormat(locale, options).format(value)`. -/
def formatPrice (numberFormat : String → NumberFormatOptions → ℚ → String) (price : ℚ) :
    String :=
  numberFormat "en-US" (formatPriceOptions price) price

/-- The function `formatLargeNumber`. -/
def formatLargeNumber (numberToString : ℚ → String) (num : ℚ) : String :=
  if 1000000000000 ≤ num then
    "$" ++ (jsDiv num 1000000000000).toFixed numberToString 2 ++ "T"
  else if 1000000000 ≤ num then
    "$" ++ (jsDiv num 1000000000).toFixed numberToString 2 ++ "B"
  else if 1000000 ≤ num then
    "$" ++ (jsDiv num 1000000).toFixed numberToString 2 ++ "M"
  else if 1000 ≤ num then
    "$" ++ (jsDiv num 1000).toFixed numberToString 2 ++ "K"
  else "$" ++ toFixed numberToString num 2

/-- Falsiness of a number: `NaN` and zero. -/
def JSNum.falsy : JSNum → Bool
  | .nan => true
  | .num q => decide (q = 0)
  | .posInf => false
  | .negInf => false

/-- The function `formatSupply`. -/
def formatSupply (numberToString : ℚ → String) (supply : JSArg) (symbol : String) : String :=
  match supply with
  | .null => "N/A"
  | .undefined => "N/A"
  | .number x =>
    if x.falsy then "N/A"
    else if x.ge 1000000000 then
      (x.divBy 1000000000).toFixed numberToString 2 ++ "B " ++ symbol
    else if x.ge 1000000 then
      (x.divBy 1000000).toFixed numberToString 2 ++ "M " ++ symbol
    else if x.ge 1000 then
      (x.divBy 1000).toFixed numberToString 2 ++ "K " ++ symbol
    else x.toFixed numberToString 2 ++ " " ++ symbol

/-- The turnover line of a row: `formatSupply(asset.volume24h / asset.price,
asset.symbol)`. -/
def turnoverText (numberToString : ℚ → String) (asset : Asset) : String :=
  formatSupply numberToString (.number (jsDiv asset.volume24h asset.price)) asset.symbol

/-- What `renderPercentChange` returns: the string 'N/A', or the outer span
with its class name, the arrow and the text of the inner span. -/
inductive PercentChangeView where
  | text (s : String)
  | span (className arrow inner : String)
  deriving DecidableEq

/-- The function `renderPercentChange`. -/
def renderPercentChange (numberToString : ℚ → String) (value : JSArg) : PercentChangeView :=
  match value with
  | .null => .text "N/A"
  | .undefined => .text "N/A"
  | .number v =>
    let isPositive := v.ge 0
    let colorClass := if isPositive then "text-green-500" else "text-red-500"
    let arrow := if isPositive then "▲" else "▼"
    let bgColorClass := if isPositive then "bg-green-50" else "bg-red-50"
    .span (colorClass ++ " font-medium px-2 py-1 rounded-md " ++ bgColorClass ++
        " inline-flex items-center")
      arrow (v.abs.toFixed numberToString 2 ++ "%")

/-! ## User actions -/

/-- The handler `handleItemsPerPageChange(e)`; `newItemsPerPage` is
`Number(e.target.value)`. The fetch it dispatches is outside the view state. -/
def handleItemsPerPageChange (s : ViewState) (newItemsPerPage : Int) : ViewState :=
  { s with itemsPerPage := newItemsPerPage, currentPage := 1 }

/-- The options of the page-size select. -/
inductive PageSizeOption where
  | opt5
  | opt10
  | opt25
  | opt50
  deriving DecidableEq

/-- The `value` of an option of the page-size select. -/
def PageSizeOption.value : PageSizeOption → Int
  | .opt5 => 5
  | .opt10 => 10
  | .opt25 => 25
  | .opt50 => 50

/-- The actions the table offers to the user. -/
inductive Action where
  | next
  | previous
  | selectPageSize (o : PageSizeOption)
  | editFilter (name value : String)
  | reset
  | sort (key : String)
  | toggleFavorites
  | toggleFilterPanel

/-- The effect of one action on the view state. -/
def step (s : ViewState) : Action → ViewState
  | .next => clickNext s
  | .previous => clickPrevious s
  | .selectPageSize o => handleItemsPerPageChange s o.value
  | .editFilter name value => handleFilterChange s name value
  | .reset => resetFilters s
  | .sort key => requestSort s key
  | .toggleFavorites => { s with showOnlyFavorites := !s.showOnlyFavorites }
  | .toggleFilterPanel => { s with isFilterOpen := !s.isFilterOpen }

/-- The state after a sequence of actions. -/
def run (s : ViewState) (actions : List Action) : ViewState :=
  actions.foldl step s

/-! ## Helpers for stating the claims -/

/-- The other direction: `asc` for `desc` and `desc` for `asc`. -/
def Direction.toggle : Direction → Direction
  | .asc => .desc
  | .desc => .asc

/-- The records of a list whose value under `key` is not null, in order. -/
def nonNullBy (key : String) (l : List Asset) : List Asset :=
  l.filter (fun a => a.prop key != .null)

/-- An asset with the given id, price and 24h change; the other attributes are
fixed. -/
def sampleAsset (id : String) (price : ℚ) (percentChange24h : Option ℚ) : Asset where
  id := id
  rank := 1
  name := id
  symbol := id
  logo := ""
  price := price
  percentChange1h := none
  percentChange24h := percentChange24h
  percentChange7d := none
  marketCap := 0
  volume24h := 0
  circulatingSupply := none
  maxSupply := none

/-- Filter options with the two price bounds and the change bound given. -/
def sampleOptions (priceMin priceMax percentChangeMin : String) : FilterOptions where
  priceMin := priceMin
  priceMax := priceMax
  percentChangeMin := percentChangeMin
  searchTerm := ""

/-- Modelled from the claims' words "to exactly 2 decimals": the hundredth
nearest to a non-negative `x` (the upper one on a tie), written as its integer
part, a point and two digits. -/
def twoDecimals (x : ℚ) : String :=
  let n := ⌊x * 100 + 1 / 2⌋.toNat
  String.mk (decimalDigits (n / 100) ++
    ['.', Nat.digitChar (n % 100 / 10), Nat.digitChar (n % 10)])

/-- A string with its leading '$' removed. -/
def stripDollar (s : String) : String :=
  match s.data with
  | '$' :: r => String.mk r
  | _ => s

/-! ## General facts about the sort -/

theorem insertSorted_perm {α : Type} (cmp : α → α → JSNum) (x : α) (l : List α) :
    (insertSorted cmp x l).Perm (x :: l) := by
  induction l with
  | nil => simp [insertSorted]
  | cons y ys ih =>
    unfold insertSorted
    split
    · exact List.Perm.refl _
    · exact (List.Perm.cons y ih).trans (List.Perm.swap x y ys)

theorem foldl_insertSorted_perm {α : Type} (cmp : α → α → JSNum) (l acc : List α) :
    (l.foldl (fun acc x => insertSorted cmp x acc) acc).Perm (acc ++ l) := by
  induction l generalizing acc with
  | nil => simp
  | cons x xs ih =>
    simp only [List.foldl_cons]
    refine (ih _).trans ?_
    refine ((insertSorted_perm cmp x acc).append_right xs).trans ?_
    simpa using (@List.perm_middle _ x acc xs).symm

theorem arraySort_perm {α : Type} (cmp : α → α → JSNum) (l : List α) :
    (arraySort cmp l).Perm l := by
  simpa [arraySort] using foldl_insertSorted_perm cmp l []

theorem sortedAssets_perm (localeCompare : String → String → Int) (assets : List Asset)
    (sortConfig : SortConfig) : (sortedAssets localeCompare assets sortConfig).Perm assets := by
  unfold sortedAssets
  split
  · exact arraySort_perm _ _
  · exact List.Perm.refl _

/-- Insertion keeps a list ordered when "not strictly after" is total and
transitive for the comparator. -/
theorem insertSorted_pairwise {α : Type} (cmp : α → α → JSNum)
    (hasym : ∀ x y, (cmp x y).isNeg = true → (cmp y x).isNeg = false)
    (htrans : ∀ x y z, (cmp y x).isNeg = false → (cmp z y).isNeg = false →
      (cmp z x).isNeg = false)
    (x : α) (l : List α) (hl : l.Pairwise (fun a b => (cmp b a).isNeg = false)) :
    (insertSorted cmp x l).Pairwise (fun a b => (cmp b a).isNeg = false) := by
  induction l with
  | nil => simp [insertSorted]
  | cons y ys ih =>
    rw [List.pairwise_cons] at hl
    unfold insertSorted
    split
    · rename_i hxy
      rw [List.pairwise_cons]
      refine ⟨?_, List.pairwise_cons.mpr hl⟩
      intro z hz
      rcases List.mem_cons.mp hz with rfl | hz
      · exact hasym _ _ hxy
      · exact htrans _ _ _ (hasym _ _ hxy) (hl.1 z hz)
    · rename_i hxy
      rw [List.pairwise_cons]
      refine ⟨?_, ih hl.2⟩
      intro z hz
      rcases List.mem_cons.mp ((insertSorted_perm cmp x ys).subset hz) with rfl | hz
      · simpa using hxy
      · exact hl.1 z hz

theorem arraySort_pairwise {α : Type} (cmp : α → α → JSNum)
    (hasym : ∀ x y, (cmp x y).isNeg = true → (cmp y x).isNeg = false)
    (htrans : ∀ x y z, (cmp y x).isNeg = false → (cmp z y).isNeg = false →
      (cmp z x).isNeg = false)
    (l : List α) : (arraySort cmp l).Pairwise (fun a b => (cmp b a).isNeg = false) := by
  have key : ∀ (l acc : List α), acc.Pairwise (fun a b => (cmp b a).isNeg = false) →
      (l.foldl (fun acc x => insertSorted cmp x acc) acc).Pairwise
        (fun a b => (cmp b a).isNeg = false) := by
    intro l
    induction l with
    | nil => intro acc h; simpa using h
    | cons x xs ih =>
      intro acc h
      simp only [List.foldl_cons]
      exact ih _ (insertSorted_pairwise cmp hasym htrans x acc h)
  exact key l [] List.Pairwise.nil

/-! ## Facts about rounding -/

theorem roundHalfEven_intCast (n : ℤ) : roundHalfEven (n : ℚ) = n := by
  simp [roundHalfEven]

theorem log_two_eq (x : ℚ) (e : ℤ) (hx : 0 < x) (h1 : (2 : ℚ) ^ e ≤ x)
    (h2 : x < (2 : ℚ) ^ (e + 1)) : Int.log 2 x = e := by
  have a : e ≤ Int.log 2 x := (Int.zpow_le_iff_le_log (by norm_num) hx).mp (by exact_mod_cast h1)
  have b : Int.log 2 x < e + 1 := (Int.lt_zpow_iff_log_lt (by norm_num) hx).mp (by exact_mod_cast h2)
  omega

theorem roundBinary64_eq (x : ℚ) (e n : ℤ) (hx : 0 < x) (h1 : (2 : ℚ) ^ e ≤ x)
    (h2 : x < (2 : ℚ) ^ (e + 1)) (he : -1022 ≤ e)
    (hn : roundHalfEven (x / (2 : ℚ) ^ (e - 52)) = n)
    (hfin : (n : ℚ) * (2 : ℚ) ^ (e - 52) < (2 : ℚ) ^ (1024 : ℤ)) :
    roundBinary64 x = .num ((n : ℚ) * (2 : ℚ) ^ (e - 52)) := by
  unfold roundBinary64
  rw [if_neg hx.ne']
  simp only [abs_of_pos hx, log_two_eq x e hx h1 h2, max_eq_left he, hn]
  rw [if_neg (not_le.mpr hfin), if_neg (not_lt.mpr hx.le)]

theorem roundBinary64_exact (x : ℚ) (e n : ℤ) (hn1 : 2 ^ 52 ≤ n) (hn2 : n < 2 ^ 53)
    (hx : x = (n : ℚ) * (2 : ℚ) ^ (e - 52)) (he : -1022 ≤ e) (he2 : e ≤ 1023) :
    roundBinary64 x = .num x := by
  have hpos : (0 : ℚ) < (2 : ℚ) ^ (e - 52) := zpow_pos (by norm_num) _
  have hn1' : ((2 : ℚ) ^ (52 : ℤ)) ≤ (n : ℚ) := by
    have : ((2 ^ 52 : ℤ) : ℚ) ≤ (n : ℚ) := by exact_mod_cast hn1
    norm_num at this ⊢
    exact this
  have hn2' : (n : ℚ) < ((2 : ℚ) ^ (53 : ℤ)) := by
    have : (n : ℚ) < ((2 ^ 53 : ℤ) : ℚ) := by exact_mod_cast hn2
    norm_num at this ⊢
    exact this
  have e1 : (2 : ℚ) ^ e = (2 : ℚ) ^ (52 : ℤ) * (2 : ℚ) ^ (e - 52) := by
    rw [← zpow_add₀ (by norm_num)]
    congr 1
    omega
  have e2 : (2 : ℚ) ^ (e + 1) = (2 : ℚ) ^ (53 : ℤ) * (2 : ℚ) ^ (e - 52) := by
    rw [← zpow_add₀ (by norm_num)]
    congr 1
    omega
  have hx0 : 0 < x := by
    rw [hx]
    exact mul_pos (lt_of_lt_of_le (by positivity) hn1') hpos
  have h1 : (2 : ℚ) ^ e ≤ x := by
    rw [hx, e1]
    exact mul_le_mul_of_nonneg_right hn1' hpos.le
  have h2 : x < (2 : ℚ) ^ (e + 1) := by
    rw [hx, e2]
    exact mul_lt_mul_of_pos_right hn2' hpos
  have hdiv : x / (2 : ℚ) ^ (e - 52) = (n : ℚ) := by
    rw [hx]
    field_simp
  have hfin : (n : ℚ) * (2 : ℚ) ^ (e - 52) < (2 : ℚ) ^ (1024 : ℤ) := by
    rw [← hx]
    refine lt_of_lt_of_le h2 ?_
    exact zpow_le_zpow_right₀ (by norm_num) (by omega)
  rw [roundBinary64_eq x e n hx0 h1 h2 he (by rw [hdiv, roundHalfEven_intCast]) hfin, ← hx]

theorem roundHalfEven_bounds (m : ℚ) : ⌊m⌋ ≤ roundHalfEven m ∧ roundHalfEven m ≤ ⌊m⌋ + 1 := by
  unfold roundHalfEven
  split_ifs <;> omega

/-- Rounding a non-negative value below `2^k` gives a finite value between 0
and `2^k`. -/
theorem roundBinary64_le_two_zpow (x : ℚ) (k : ℤ) (hx : 0 ≤ x) (hk : x < (2 : ℚ) ^ k)
    (hk1 : -1021 ≤ k) (hk2 : k ≤ 1023) :
    ∃ q, roundBinary64 x = .num q ∧ 0 ≤ q ∧ q ≤ (2 : ℚ) ^ k := by
  by_cases h0 : x = 0
  · refine ⟨0, by simp [roundBinary64, h0], le_refl _, (zpow_pos (by norm_num) _).le⟩
  · have hpos : 0 < x := lt_of_le_of_ne hx (Ne.symm h0)
    have hlog : Int.log 2 x < k :=
      (Int.lt_zpow_iff_log_lt (by norm_num) hpos).mp (by exact_mod_cast hk)
    have he : max (Int.log 2 x) (-1022) ≤ k - 1 := max_le (by omega) (by omega)
    have hulp : (0 : ℚ) < (2 : ℚ) ^ (max (Int.log 2 x) (-1022) - 52) := zpow_pos (by norm_num) _
    have hx2 : x < (2 : ℚ) ^ (53 : ℤ) * (2 : ℚ) ^ (max (Int.log 2 x) (-1022) - 52) := by
      rw [← zpow_add₀ (by norm_num)]
      have h := Int.lt_zpow_succ_log_self (R := ℚ) (b := 2) (by norm_num) x
      refine lt_of_lt_of_le (by exact_mod_cast h) ?_
      exact zpow_le_zpow_right₀ (by norm_num) (by
        have := le_max_left (Int.log 2 x) (-1022)
        omega)
    have hm : x / (2 : ℚ) ^ (max (Int.log 2 x) (-1022) - 52) < (2 : ℚ) ^ (53 : ℤ) := by
      rw [div_lt_iff₀ hulp]
      exact hx2
    have hm0 : 0 ≤ x / (2 : ℚ) ^ (max (Int.log 2 x) (-1022) - 52) := div_nonneg hx hulp.le
    have hb := roundHalfEven_bounds (x / (2 : ℚ) ^ (max (Int.log 2 x) (-1022) - 52))
    have hfl0 : 0 ≤ ⌊x / (2 : ℚ) ^ (max (Int.log 2 x) (-1022) - 52)⌋ := Int.floor_nonneg.mpr hm0
    have hfl1 : ⌊x / (2 : ℚ) ^ (max (Int.log 2 x) (-1022) - 52)⌋ < 2 ^ 53 := by
      rw [Int.floor_lt]
      norm_num at hm ⊢
      exact hm
    have hn0 : (0 : ℚ) ≤ (roundHalfEven (x / (2 : ℚ) ^ (max (Int.log 2 x) (-1022) - 52)) : ℚ) := by
      exact_mod_cast le_trans hfl0 hb.1
    have hn1 : (roundHalfEven (x / (2 : ℚ) ^ (max (Int.log 2 x) (-1022) - 52)) : ℚ) ≤
        (2 : ℚ) ^ (53 : ℤ) := by
      have : roundHalfEven (x / (2 : ℚ) ^ (max (Int.log 2 x) (-1022) - 52)) ≤ 2 ^ 53 := by omega
      have h' : (roundHalfEven (x / (2 : ℚ) ^ (max (Int.log 2 x) (-1022) - 52)) : ℚ) ≤
          ((2 ^ 53 : ℤ) : ℚ) := by exact_mod_cast this
      norm_num at h' ⊢
      exact h'
    have hy : (roundHalfEven (x / (2 : ℚ) ^ (max (Int.log 2 x) (-1022) - 52)) : ℚ) *
        (2 : ℚ) ^ (max (Int.log 2 x) (-1022) - 52) ≤ (2 : ℚ) ^ k := by
      refine le_trans (mul_le_mul_of_nonneg_right hn1 hulp.le) ?_
      rw [← zpow_add₀ (by norm_num)]
      exact zpow_le_zpow_right₀ (by norm_num) (by omega)
    have hfin : ¬ (2 : ℚ) ^ (1024 : ℤ) ≤
        (roundHalfEven (x / (2 : ℚ) ^ (max (Int.log 2 x) (-1022) - 52)) : ℚ) *
        (2 : ℚ) ^ (max (Int.log 2 x) (-1022) - 52) := by
      rw [not_le]
      refine lt_of_le_of_lt hy ?_
      exact zpow_lt_zpow_right₀ (by norm_num) (by omega)
    refine ⟨_, ?_, mul_nonneg hn0 hulp.le, hy⟩
    unfold roundBinary64
    rw [if_neg h0]
    simp only [abs_of_pos hpos]
    rw [if_neg hfin, if_neg (not_lt.mpr hx)]

/-- Rounding a non-negative value gives no negative value. -/
theorem roundBinary64_nonneg (x q : ℚ) (hx : 0 ≤ x) (h : roundBinary64 x = .num q) : 0 ≤ q := by
  by_cases h0 : x = 0
  · simp [roundBinary64, h0] at h
    rw [← h]
  · have hpos : 0 < x := lt_of_le_of_ne hx (Ne.symm h0)
    have hulp : (0 : ℚ) < (2 : ℚ) ^ (max (Int.log 2 x) (-1022) - 52) := zpow_pos (by norm_num) _
    have hm0 : 0 ≤ x / (2 : ℚ) ^ (max (Int.log 2 x) (-1022) - 52) := div_nonneg hx hulp.le
    have hb := roundHalfEven_bounds (x / (2 : ℚ) ^ (max (Int.log 2 x) (-1022) - 52))
    have hfl0 : 0 ≤ ⌊x / (2 : ℚ) ^ (max (Int.log 2 x) (-1022) - 52)⌋ := Int.floor_nonneg.mpr hm0
    have hn0 : (0 : ℚ) ≤ (roundHalfEven (x / (2 : ℚ) ^ (max (Int.log 2 x) (-1022) - 52)) : ℚ) := by
      exact_mod_cast le_trans hfl0 hb.1
    unfold roundBinary64 at h
    rw [if_neg h0] at h
    simp only [abs_of_pos hpos] at h
    split at h
    · rw [if_neg (not_lt.mpr hx)] at h
      exact absurd h (by simp)
    · rw [if_neg (not_lt.mpr hx)] at h
      injection h with h
      rw [← h]
      exact mul_nonneg hn0 hulp.le

theorem roundBinary64_1 : roundBinary64 1 = .num 1 := by
  apply roundBinary64_exact 1 0 4503599627370496 <;> norm_num

theorem roundBinary64_10 : roundBinary64 10 = .num 10 := by
  apply roundBinary64_exact 10 3 5629499534213120 <;> norm_num

theorem roundBinary64_100 : roundBinary64 100 = .num 100 := by
  apply roundBinary64_exact 100 6 7036874417766400 <;> norm_num

theorem roundBinary64_5 : roundBinary64 5 = .num 5 := by
  apply roundBinary64_exact 5 2 5629499534213120 <;> norm_num

theorem roundBinary64_12 : roundBinary64 12 = .num 12 := by
  apply roundBinary64_exact 12 3 6755399441055744 <;> norm_num

theorem roundBinary64_1000 : roundBinary64 1000 = .num 1000 := by
  apply roundBinary64_exact 1000 9 8796093022208000 <;> norm_num

theorem roundBinary64_1e22 :
    roundBinary64 10000000000000000000000 = .num 10000000000000000000000 := by
  apply roundBinary64_exact 10000000000000000000000 73 4768371582031250 <;> norm_num

theorem roundBinary64_zero : roundBinary64 0 = .num 0 := by
  simp [roundBinary64]

/-! ## Facts about the filter -/

theorem truthy_eq_true_iff (s : String) : truthy s = true ↔ s ≠ "" := by
  simp [truthy]

theorem jsLt_eq_not_jsGe (x : ℚ) (b : JSNum) (hb : b ≠ .nan) : jsLt x b = !jsGe x b := by
  cases b with
  | nan => exact absurd rfl hb
  | num q => by_cases h : x < q <;> simp [jsLt, jsGe, h, not_le.mpr, le_of_not_lt]
  | posInf => rfl
  | negInf => rfl

theorem jsGt_eq_not_jsLe (x : ℚ) (b : JSNum) (hb : b ≠ .nan) : jsGt x b = !jsLe x b := by
  cases b with
  | nan => exact absurd rfl hb
  | num q => by_cases h : q < x <;> simp [jsGt, jsLe, h, not_le.mpr, le_of_not_lt]
  | posInf => rfl
  | negInf => rfl

theorem parseFloat_10 : parseFloat "10" = .num 10 := by
  simp [parseFloat, unsignedLiteral, digitsValue, exponentPart, scale10, isStrWhiteSpaceChar,
    List.isPrefixOf, List.takeWhile, List.dropWhile, Char.isDigit, roundBinary64_10]

theorem parseFloat_100 : parseFloat "100" = .num 100 := by
  simp [parseFloat, unsignedLiteral, digitsValue, exponentPart, scale10, isStrWhiteSpaceChar,
    List.isPrefixOf, List.takeWhile, List.dropWhile, Char.isDigit, roundBinary64_100]

theorem parseFloat_neg5 : parseFloat "-5" = .num (-5) := by
  simp [parseFloat, unsignedLiteral, digitsValue, exponentPart, scale10, isStrWhiteSpaceChar,
    List.isPrefixOf, List.takeWhile, List.dropWhile, Char.isDigit, roundBinary64_5, JSNum.neg]

theorem parseFloat_0 : parseFloat "0" = .num 0 := by
  simp [parseFloat, unsignedLiteral, digitsValue, exponentPart, scale10, isStrWhiteSpaceChar,
    List.isPrefixOf, List.takeWhile, List.dropWhile, Char.isDigit, roundBinary64_zero]

theorem parseFloat_12abc : parseFloat "12abc" = .num 12 := by
  simp [parseFloat, unsignedLiteral, digitsValue, exponentPart, scale10, isStrWhiteSpaceChar,
    List.isPrefixOf, List.takeWhile, List.dropWhile, Char.isDigit, roundBinary64_12]

theorem parseFloat_abc : parseFloat "abc" = .nan := by decide

/-! ## The comparator on a numeric key -/

theorem prop_numeric (a : Asset) (key : String) (hk : key ∈ numericKeys) :
    a.prop key = .null ∨ ∃ q, a.prop key = .num q := by
  simp only [numericKeys, List.mem_cons, List.mem_singleton, List.not_mem_nil, or_false] at hk
  rcases hk with rfl | rfl | rfl | rfl | rfl | rfl | rfl | rfl | rfl
  · exact Or.inr ⟨a.rank, by simp [Asset.prop]⟩
  · exact Or.inr ⟨a.price, by simp [Asset.prop]⟩
  · cases h : a.percentChange1h <;> simp [Asset.prop, ofNullable, h]
  · cases h : a.percentChange24h <;> simp [Asset.prop, ofNullable, h]
  · cases h : a.percentChange7d <;> simp [Asset.prop, ofNullable, h]
  · exact Or.inr ⟨a.marketCap, by simp [Asset.prop]⟩
  · exact Or.inr ⟨a.volume24h, by simp [Asset.prop]⟩
  · cases h : a.circulatingSupply <;> simp [Asset.prop, ofNullable, h]
  · cases h : a.maxSupply <;> simp [Asset.prop, ofNullable, h]

theorem truthy_numericKey (key : String) (hk : key ∈ numericKeys) : truthy key = true := by
  simp only [numericKeys, List.mem_cons, List.mem_singleton, List.not_mem_nil, or_false] at hk
  rcases hk with rfl | rfl | rfl | rfl | rfl | rfl | rfl | rfl | rfl <;> decide

theorem sortCompare_null_left (lc : String → String → Int) (key : String) (d : Direction)
    (a b : Asset) (ha : a.prop key = .null) :
    (sortCompare lc ⟨key, d⟩ a b).isNeg = false := by
  simp [sortCompare, ha, JSNum.isNeg]

theorem sortCompare_num_null (lc : String → String → Int) (key : String) (d : Direction)
    (a b : Asset) (x : ℚ) (ha : a.prop key = .num x) (hb : b.prop key = .null) :
    (sortCompare lc ⟨key, d⟩ a b).isNeg = true := by
  simp [sortCompare, ha, hb, JSNum.isNeg]

theorem sortCompare_num_asc (lc : String → String → Int) (key : String)
    (a b : Asset) (x y : ℚ) (ha : a.prop key = .num x) (hb : b.prop key = .num y) :
    (sortCompare lc ⟨key, .asc⟩ a b).isNeg = decide (x < y) := by
  simp [sortCompare, ha, hb, JSNum.isNeg, jsSub]

theorem sortCompare_num_desc (lc : String → String → Int) (key : String)
    (a b : Asset) (x y : ℚ) (ha : a.prop key = .num x) (hb : b.prop key = .num y) :
    (sortCompare lc ⟨key, .desc⟩ a b).isNeg = decide (y < x) := by
  simp [sortCompare, ha, hb, JSNum.isNeg, jsSub]

theorem sortCompare_asym (lc : String → String → Int) (key : String) (d : Direction)
    (hk : key ∈ numericKeys) (a b : Asset)
    (h : (sortCompare lc ⟨key, d⟩ a b).isNeg = true) :
    (sortCompare lc ⟨key, d⟩ b a).isNeg = false := by
  rcases prop_numeric a key hk with ha | ⟨x, ha⟩
  · rw [sortCompare_null_left lc key d a b ha] at h
    exact absurd h (by simp)
  · rcases prop_numeric b key hk with hb | ⟨y, hb⟩
    · exact sortCompare_null_left lc key d b a hb
    · cases d
      · rw [sortCompare_num_asc lc key a b x y ha hb] at h
        rw [sortCompare_num_asc lc key b a y x hb ha]
        simp only [decide_eq_true_eq] at h
        simpa using le_of_lt h
      · rw [sortCompare_num_desc lc key a b x y ha hb] at h
        rw [sortCompare_num_desc lc key b a y x hb ha]
        simp only [decide_eq_true_eq] at h
        simpa using le_of_lt h

theorem sortCompare_trans (lc : String → String → Int) (key : String) (d : Direction)
    (hk : key ∈ numericKeys) (a b c : Asset)
    (hba : (sortCompare lc ⟨key, d⟩ b a).isNeg = false)
    (hcb : (sortCompare lc ⟨key, d⟩ c b).isNeg = false) :
    (sortCompare lc ⟨key, d⟩ c a).isNeg = false := by
  rcases prop_numeric c key hk with hc | ⟨z, hc⟩
  · exact sortCompare_null_left lc key d c a hc
  · rcases prop_numeric b key hk with hb | ⟨y, hb⟩
    · rw [sortCompare_num_null lc key d c b z hc hb] at hcb
      exact absurd hcb (by simp)
    · rcases prop_numeric a key hk with ha | ⟨x, ha⟩
      · rw [sortCompare_num_null lc key d b a y hb ha] at hba
        exact absurd hba (by simp)
      · cases d
        · rw [sortCompare_num_asc lc key _ _ _ _ hb ha] at hba
          rw [sortCompare_num_asc lc key _ _ _ _ hc hb] at hcb
          rw [sortCompare_num_asc lc key _ _ _ _ hc ha]
          simp only [decide_eq_false_iff_not, not_lt] at hba hcb ⊢
          exact le_trans hba hcb
        · rw [sortCompare_num_desc lc key _ _ _ _ hb ha] at hba
          rw [sortCompare_num_desc lc key _ _ _ _ hc hb] at hcb
          rw [sortCompare_num_desc lc key _ _ _ _ hc ha]
          simp only [decide_eq_false_iff_not, not_lt] at hba hcb ⊢
          exact le_trans hcb hba

/-- On a numeric key the sorted list is ordered by the comparator: no element
is put strictly before an earlier one. -/
theorem sortedAssets_pairwise (lc : String → String → Int) (assets : List Asset)
    (key : String) (d : Direction) (hk : key ∈ numericKeys) :
    (sortedAssets lc assets ⟨key, d⟩).Pairwise
      (fun a b => (sortCompare lc ⟨key, d⟩ b a).isNeg = false) := by
  unfold sortedAssets
  rw [if_pos (truthy_numericKey key hk)]
  exact arraySort_pairwise _ (sortCompare_asym lc key d hk)
    (fun x y z h1 h2 => sortCompare_trans lc key d hk x y z h1 h2) assets

theorem sortedAssets_asc_le (lc : String → String → Int) (assets : List Asset)
    (key : String) (hk : key ∈ numericKeys) :
    (sortedAssets lc assets ⟨key, .asc⟩).Pairwise
      (fun a b => ∀ x y, a.prop key = .num x → b.prop key = .num y → x ≤ y) := by
  refine (sortedAssets_pairwise lc assets key .asc hk).imp ?_
  intro a b h x y ha hb
  rw [sortCompare_num_asc lc key b a y x hb ha] at h
  simpa using h

theorem sortedAssets_desc_ge (lc : String → String → Int) (assets : List Asset)
    (key : String) (hk : key ∈ numericKeys) :
    (sortedAssets lc assets ⟨key, .desc⟩).Pairwise
      (fun a b => ∀ x y, a.prop key = .num x → b.prop key = .num y → y ≤ x) := by
  refine (sortedAssets_pairwise lc assets key .desc hk).imp ?_
  intro a b h x y ha hb
  rw [sortCompare_num_desc lc key b a y x hb ha] at h
  simpa using h

/-! ## Claims -/

/-- C1 (as stated, refuted): with `priceMin` set to "abc" (and nothing else
set) a record of price 5 is retained, although `priceMin` is not unset and
`price >= priceMin` is false, the bound being NaN. -/
theorem filteredAssets_nan_price_bound_counterexample :
    (sampleOptions "abc" "" "").percentChangeMin = "" ∧
    sampleAsset "a" 5 none ∈
      filteredAssets id [sampleAsset "a" 5 none] false [] (sampleOptions "abc" "" "") ∧
    ¬ ((sampleOptions "abc" "" "").priceMin = "" ∨
      jsGe (sampleAsset "a" 5 none).price
        (parseFloat (sampleOptions "abc" "" "").priceMin) = true) := by
  refine ⟨rfl, ?_, ?_⟩
  · simp [filteredAssets, filterCallback, sampleAsset, sampleOptions, truthy, jsLt,
      parseFloat_abc]
  · simp [sampleOptions, sampleAsset, parseFloat_abc, jsGe]

/-- C1 (amended): with `percentChangeMin` unset and each price bound either
unset or a value from which `parseFloat` reads a number (not NaN), the filter
step retains a record if and only if (a) `showOnlyFavorites`
is false or its id is in `favorites`, (b) `priceMin` is unset or
`price >= priceMin`, (c) `priceMax` is unset or `price <= priceMax`, and
(d) `searchTerm` is unset or the lower-cased name or symbol contains the
lower-cased term. Both price bounds are inclusive. -/
theorem filteredAssets_mem_iff (toLowerCase : String → String) (sorted : List Asset)
    (showOnlyFavorites : Bool) (favorites : List String) (fo : FilterOptions) (asset : Asset)
    (hpc : fo.percentChangeMin = "")
    (hmin : fo.priceMin = "" ∨ parseFloat fo.priceMin ≠ .nan)
    (hmax : fo.priceMax = "" ∨ parseFloat fo.priceMax ≠ .nan) :
    asset ∈ filteredAssets toLowerCase sorted showOnlyFavorites favorites fo ↔
      asset ∈ sorted ∧
      (showOnlyFavorites = false ∨ asset.id ∈ favorites) ∧
      (fo.priceMin = "" ∨ jsGe asset.price (parseFloat fo.priceMin) = true) ∧
      (fo.priceMax = "" ∨ jsLe asset.price (parseFloat fo.priceMax) = true) ∧
      (fo.searchTerm = "" ∨
        includes (toLowerCase asset.name) (toLowerCase fo.searchTerm) = true ∨
        includes (toLowerCase asset.symbol) (toLowerCase fo.searchTerm) = true) := by
  have h1 : (truthy fo.priceMin && jsLt asset.price (parseFloat fo.priceMin)) = true ↔
      ¬ (fo.priceMin = "" ∨ jsGe asset.price (parseFloat fo.priceMin) = true) := by
    rcases hmin with h | h
    · simp [h, truthy]
    · simp [jsLt_eq_not_jsGe _ _ h, truthy]
  have h2 : (truthy fo.priceMax && jsGt asset.price (parseFloat fo.priceMax)) = true ↔
      ¬ (fo.priceMax = "" ∨ jsLe asset.price (parseFloat fo.priceMax) = true) := by
    rcases hmax with h | h
    · simp [h, truthy]
    · simp [jsGt_eq_not_jsLe _ _ h, truthy]
  have h3 : (truthy fo.percentChangeMin &&
      jsLt (toNumber asset.percentChange24h) (parseFloat fo.percentChangeMin)) = false := by
    simp [hpc, truthy]
  unfold filteredAssets
  rw [List.mem_filter]
  refine and_congr_right (fun _ => ?_)
  unfold filterCallback
  rw [h3]
  by_cases c1 : (truthy fo.priceMin && jsLt asset.price (parseFloat fo.priceMin)) = true
  · have n1 := h1.mp c1
    simp [c1, n1]
  · have n1 : fo.priceMin = "" ∨ jsGe asset.price (parseFloat fo.priceMin) = true := by
      by_contra hc
      exact c1 (h1.mpr hc)
    by_cases c2 : (truthy fo.priceMax && jsGt asset.price (parseFloat fo.priceMax)) = true
    · have n2 := h2.mp c2
      simp [c2, n2]
    · have n2 : fo.priceMax = "" ∨ jsLe asset.price (parseFloat fo.priceMax) = true := by
        by_contra hc
        exact c2 (h2.mpr hc)
      simp only [c1, c2, n1, n2, true_and]
      cases showOnlyFavorites <;> by_cases hf : asset.id ∈ favorites <;>
        by_cases hs : fo.searchTerm = "" <;> simp [hf, hs, truthy]

/-- C1 at priceMin = 10 and priceMax = 100: price 5 is excluded and prices 10,
50 and 100 are retained. -/
theorem filteredAssets_mem_iff_witness :
    (sampleOptions "10" "100" "").percentChangeMin = "" ∧
    sampleAsset "a" 5 none ∉ filteredAssets id
      [sampleAsset "a" 5 none, sampleAsset "b" 10 none, sampleAsset "c" 50 none,
        sampleAsset "d" 100 none] false [] (sampleOptions "10" "100" "") ∧
    sampleAsset "b" 10 none ∈ filteredAssets id
      [sampleAsset "a" 5 none, sampleAsset "b" 10 none, sampleAsset "c" 50 none,
        sampleAsset "d" 100 none] false [] (sampleOptions "10" "100" "") ∧
    sampleAsset "c" 50 none ∈ filteredAssets id
      [sampleAsset "a" 5 none, sampleAsset "b" 10 none, sampleAsset "c" 50 none,
        sampleAsset "d" 100 none] false [] (sampleOptions "10" "100" "") ∧
    sampleAsset "d" 100 none ∈ filteredAssets id
      [sampleAsset "a" 5 none, sampleAsset "b" 10 none, sampleAsset "c" 50 none,
        sampleAsset "d" 100 none] false [] (sampleOptions "10" "100" "") := by
  have hmin : (sampleOptions "10" "100" "").priceMin = "" ∨
      parseFloat (sampleOptions "10" "100" "").priceMin ≠ .nan :=
    Or.inr (by simp [sampleOptions, parseFloat_10])
  have hmax : (sampleOptions "10" "100" "").priceMax = "" ∨
      parseFloat (sampleOptions "10" "100" "").priceMax ≠ .nan :=
    Or.inr (by simp [sampleOptions, parseFloat_100])
  refine ⟨rfl, ?_, ?_, ?_, ?_⟩
  · intro h
    have h' := ((filteredAssets_mem_iff id _ false [] _ _ rfl hmin hmax).mp h).2.2.1
    revert h'
    simp [sampleOptions, sampleAsset, parseFloat_10, jsGe]
    norm_num
  · refine (filteredAssets_mem_iff id _ false [] _ _ rfl hmin hmax).mpr ?_
    simp [sampleOptions, sampleAsset, parseFloat_10, parseFloat_100, jsGe, jsLe]
    norm_num
  · refine (filteredAssets_mem_iff id _ false [] _ _ rfl hmin hmax).mpr ?_
    simp [sampleOptions, sampleAsset, parseFloat_10, parseFloat_100, jsGe, jsLe]
    norm_num
  · refine (filteredAssets_mem_iff id _ false [] _ _ rfl hmin hmax).mpr ?_
    simp [sampleOptions, sampleAsset, parseFloat_10, parseFloat_100, jsGe, jsLe]
    norm_num

/-- C2 (the code at the failing inputs): a record whose `percentChange24h` is
null is retained when the bound is "-5" and when it is "0", because the
comparison `null < bound` reads null as 0; it is excluded only for a bound
above 0, such as "10". -/
theorem filteredAssets_null_change_retained :
    filteredAssets id [sampleAsset "a" 1 none] false [] (sampleOptions "" "" "-5") =
      [sampleAsset "a" 1 none] ∧
    filteredAssets id [sampleAsset "a" 1 none] false [] (sampleOptions "" "" "0") =
      [sampleAsset "a" 1 none] ∧
    filteredAssets id [sampleAsset "a" 1 none] false [] (sampleOptions "" "" "10") = [] := by
  refine ⟨?_, ?_, ?_⟩
  · simp [filteredAssets, filterCallback, sampleAsset, sampleOptions, truthy, toNumber, jsLt,
      parseFloat_neg5]
  · simp [filteredAssets, filterCallback, sampleAsset, sampleOptions, truthy, toNumber, jsLt,
      parseFloat_0]
  · simp [filteredAssets, filterCallback, sampleAsset, sampleOptions, truthy, toNumber, jsLt,
      parseFloat_10]

/-- C3: on a numeric key and in both directions, no record with a null key
value comes before a record with a non-null key value in `sortedAssets`. -/
theorem sortedAssets_nulls_last (lc : String → String → Int) (assets : List Asset)
    (key : String) (d : Direction) (hk : key ∈ numericKeys) :
    (sortedAssets lc assets ⟨key, d⟩).Pairwise
      (fun a b => a.prop key = .null → b.prop key = .null) := by
  refine (sortedAssets_pairwise lc assets key d hk).imp ?_
  intro a b h ha
  rcases prop_numeric b key hk with hb | ⟨y, hb⟩
  · exact hb
  · rw [sortCompare_num_null lc key d b a y hb ha] at h
    exact absurd h (by simp)

/-- C3 on the key `percentChange24h`, descending, with a null record first in
the input. -/
theorem sortedAssets_nulls_last_witness :
    "percentChange24h" ∈ numericKeys ∧
    (sortedAssets (fun _ _ => 0)
      [sampleAsset "a" 1 none, sampleAsset "b" 2 (some 3), sampleAsset "c" 3 (some 7)]
      ⟨"percentChange24h", .desc⟩).Pairwise
      (fun a b => a.prop "percentChange24h" = .null → b.prop "percentChange24h" = .null) :=
  ⟨by decide, sortedAssets_nulls_last _ _ _ _ (by decide)⟩

/-- C4: on a numeric key the records with a non-null key value come out of
`sortedAssets` in non-decreasing key order for `asc` and in non-increasing key
order for `desc`; A (price 50) and B (price 150) sorted by price ascending with
no filters give [A, B] from either input order. -/
theorem sortedAssets_ordered (lc : String → String → Int) (toLowerCase : String → String)
    (assets : List Asset) (key : String) (hk : key ∈ numericKeys) :
    (sortedAssets lc assets ⟨key, .asc⟩).Pairwise
      (fun a b => ∀ x y, a.prop key = .num x → b.prop key = .num y → x ≤ y) ∧
    (sortedAssets lc assets ⟨key, .desc⟩).Pairwise
      (fun a b => ∀ x y, a.prop key = .num x → b.prop key = .num y → y ≤ x) ∧
    derive toLowerCase lc [sampleAsset "A" 50 none, sampleAsset "B" 150 none] []
        { initialState with sortConfig := ⟨"price", .asc⟩ } =
      [sampleAsset "A" 50 none, sampleAsset "B" 150 none] ∧
    derive toLowerCase lc [sampleAsset "B" 150 none, sampleAsset "A" 50 none] []
        { initialState with sortConfig := ⟨"price", .asc⟩ } =
      [sampleAsset "A" 50 none, sampleAsset "B" 150 none] := by
  refine ⟨?_, ?_, ?_, ?_⟩
  · exact sortedAssets_asc_le lc assets key hk
  · exact sortedAssets_desc_ge lc assets key hk
  · have hf : ∀ a, filterCallback toLowerCase false [] initialState.filterOptions a = true := by
      intro a
      simp [filterCallback, initialState, truthy]
    simp [derive, filteredAssets, hf, sortedAssets, arraySort, insertSorted,
      sortCompare, Asset.prop, sampleAsset, truthy, jsSub, JSNum.isNeg]
    norm_num
    exact ⟨hf _, hf _⟩
  · have hf : ∀ a, filterCallback toLowerCase false [] initialState.filterOptions a = true := by
      intro a
      simp [filterCallback, initialState, truthy]
    simp [derive, filteredAssets, hf, sortedAssets, arraySort, insertSorted,
      sortCompare, Asset.prop, sampleAsset, truthy, jsSub, JSNum.isNeg]
    norm_num
    exact ⟨hf _, hf _⟩

/-- C4 on the key `price` with three records given in descending order. -/
theorem sortedAssets_ordered_witness :
    "price" ∈ numericKeys ∧
    (sortedAssets (fun _ _ => 0)
      [sampleAsset "c" 150 none, sampleAsset "b" 50 none, sampleAsset "a" 7 none]
      ⟨"price", .asc⟩).Pairwise
      (fun a b => ∀ x y, a.prop "price" = .num x → b.prop "price" = .num y → x ≤ y) :=
  ⟨by decide, (sortedAssets_ordered (fun _ _ => 0) id _ "price" (by decide)).1⟩

/-- C5 (as stated, refuted): two records with the same price keep their input
order in both directions, so the descending sequence [a, b] is not the reverse
of the ascending sequence [a, b]. -/
theorem sortedAssets_reverse_counterexample :
    nonNullBy "price" (sortedAssets (fun _ _ => 0)
        [sampleAsset "a" 5 none, sampleAsset "b" 5 none] ⟨"price", .desc⟩) ≠
      (nonNullBy "price" (sortedAssets (fun _ _ => 0)
        [sampleAsset "a" 5 none, sampleAsset "b" 5 none] ⟨"price", .asc⟩)).reverse := by
  simp [nonNullBy, sortedAssets, arraySort, insertSorted, sortCompare, Asset.prop, sampleAsset,
    truthy, jsSub, JSNum.isNeg]

/-- C5 (amended): on a numeric key, when no two different records of the list
have the same non-null key value, the non-null-key records in the `desc` output
are exactly the reverse of the non-null-key records in the `asc` output. -/
theorem sortedAssets_desc_eq_reverse_asc (lc : String → String → Int) (assets : List Asset)
    (key : String) (hk : key ∈ numericKeys)
    (hdistinct : ∀ a ∈ assets, ∀ b ∈ assets, a.prop key ≠ .null →
      a.prop key = b.prop key → a = b) :
    nonNullBy key (sortedAssets lc assets ⟨key, .desc⟩) =
      (nonNullBy key (sortedAssets lc assets ⟨key, .asc⟩)).reverse := by
  have hd : (nonNullBy key (sortedAssets lc assets ⟨key, .desc⟩)).Pairwise
      (fun a b => ∀ x y, a.prop key = .num x → b.prop key = .num y → y ≤ x) :=
    (sortedAssets_desc_ge lc assets key hk).filter _
  have ha : (nonNullBy key (sortedAssets lc assets ⟨key, .asc⟩)).reverse.Pairwise
      (fun a b => ∀ x y, a.prop key = .num x → b.prop key = .num y → y ≤ x) := by
    rw [List.pairwise_reverse]
    exact ((sortedAssets_asc_le lc assets key hk).filter _).imp (fun h x y hb ha => h y x ha hb)
  have hperm : (nonNullBy key (sortedAssets lc assets ⟨key, .desc⟩)).Perm
      (nonNullBy key (sortedAssets lc assets ⟨key, .asc⟩)).reverse := by
    refine List.Perm.trans ?_ (List.reverse_perm _).symm
    exact ((sortedAssets_perm lc assets _).filter _).trans
      ((sortedAssets_perm lc assets _).filter _).symm
  refine List.Perm.eq_of_sorted ?_ hd ha hperm
  intro a b hma hmb hab hba
  have hma' := List.mem_filter.mp hma
  have hmb' := List.mem_filter.mp ((List.mem_reverse.mp hmb))
  have ha_in : a ∈ assets := (sortedAssets_perm lc assets _).subset hma'.1
  have hb_in : b ∈ assets := (sortedAssets_perm lc assets _).subset hmb'.1
  have hna : a.prop key ≠ .null := by simpa using hma'.2
  have hnb : b.prop key ≠ .null := by simpa using hmb'.2
  rcases prop_numeric a key hk with h | ⟨x, hx⟩
  · exact absurd h hna
  · rcases prop_numeric b key hk with h | ⟨y, hy⟩
    · exact absurd h hnb
    · have h1 := hab x y hx hy
      have h2 := hba y x hy hx
      have hxy : x = y := le_antisymm h2 h1
      exact hdistinct a ha_in b hb_in hna (by rw [hx, hy, hxy])

/-- C5 (amended) on the key `price` with three records of different prices. -/
theorem sortedAssets_desc_eq_reverse_asc_witness :
    "price" ∈ numericKeys ∧
    nonNullBy "price" (sortedAssets (fun _ _ => 0)
        [sampleAsset "b" 50 none, sampleAsset "c" 150 none, sampleAsset "a" 7 none]
        ⟨"price", .desc⟩) =
      (nonNullBy "price" (sortedAssets (fun _ _ => 0)
        [sampleAsset "b" 50 none, sampleAsset "c" 150 none, sampleAsset "a" 7 none]
        ⟨"price", .asc⟩)).reverse :=
  ⟨by decide, sortedAssets_desc_eq_reverse_asc (fun _ _ => 0) _ "price" (by decide) (by
    intro a ha b hb _ hab
    simp only [List.mem_cons, List.mem_singleton, List.not_mem_nil, or_false] at ha hb
    rcases ha with rfl | rfl | rfl <;> rcases hb with rfl | rfl | rfl <;>
      first
        | rfl
        | (exfalso; revert hab; simp [Asset.prop, sampleAsset]))⟩

/-- C6: the derived row list is a permutation of the input records that pass
the filter callback; so no record occurs more often than in the input, every
row is an input record, and there are at most as many rows as input records.
The derivation is a function of the input and the state, so deriving again from
the same input and state gives the same list. -/
theorem derive_perm_filter (toLowerCase : String → String) (lc : String → String → Int)
    (assets : List Asset) (favorites : List String) (s : ViewState) :
    (derive toLowerCase lc assets favorites s).Perm
      (assets.filter
        (filterCallback toLowerCase s.showOnlyFavorites favorites s.filterOptions)) ∧
    (∀ a, (derive toLowerCase lc assets favorites s).count a ≤ assets.count a) ∧
    (∀ a, a ∈ derive toLowerCase lc assets favorites s → a ∈ assets) ∧
    (derive toLowerCase lc assets favorites s).length ≤ assets.length := by
  have hp : (derive toLowerCase lc assets favorites s).Perm
      (assets.filter
        (filterCallback toLowerCase s.showOnlyFavorites favorites s.filterOptions)) :=
    (sortedAssets_perm lc assets s.sortConfig).filter _
  refine ⟨hp, ?_, ?_, ?_⟩
  · intro a
    rw [hp.count_eq]
    exact (List.filter_sublist assets).count_le a
  · intro a ha
    exact (List.mem_filter.mp (hp.subset ha)).1
  · rw [hp.length_eq]
    exact List.length_filter_le _ _

/-- C7 (as stated, refuted): the non-numeric bound "12abc" is not treated as
absent. `parseFloat` reads its leading digits, so as `priceMin` it excludes a
record of price 5 that the filter retains when the bound is absent. -/
theorem filteredAssets_invalid_bound_counterexample :
    filteredAssets id [sampleAsset "a" 5 none] false [] (sampleOptions "12abc" "" "") = [] ∧
    filteredAssets id [sampleAsset "a" 5 none] false [] (sampleOptions "" "" "") =
      [sampleAsset "a" 5 none] := by
  refine ⟨?_, ?_⟩
  · simp [filteredAssets, filterCallback, sampleAsset, sampleOptions, truthy, jsLt,
      parseFloat_12abc]
    norm_num
  · simp [filteredAssets, filterCallback, sampleAsset, sampleOptions, truthy]

/-- C7 (amended): a value from which `parseFloat` reads no number (it returns
NaN, as for "abc"), supplied as `priceMin`, `priceMax` or `percentChangeMin`,
makes the filter step retain exactly the records it retains when that bound is
empty. The filter is a total function, so it does not fail. -/
theorem filteredAssets_nan_bound (toLowerCase : String → String) (sorted : List Asset)
    (showOnlyFavorites : Bool) (favorites : List String) (fo : FilterOptions)
    (name value : String)
    (hname : name = "priceMin" ∨ name = "priceMax" ∨ name = "percentChangeMin")
    (hvalue : parseFloat value = .nan) :
    filteredAssets toLowerCase sorted showOnlyFavorites favorites (fo.update name value) =
      filteredAssets toLowerCase sorted showOnlyFavorites favorites (fo.update name "") := by
  unfold filteredAssets
  congr 1
  funext asset
  rcases hname with rfl | rfl | rfl <;>
    simp [FilterOptions.update, filterCallback, hvalue, jsLt, jsGt, truthy]

/-- C7 (amended) at the bound "abc" supplied as `priceMin`. -/
theorem filteredAssets_nan_bound_witness :
    parseFloat "abc" = .nan ∧
    filteredAssets id [sampleAsset "a" 5 none] false []
        ((sampleOptions "" "100" "").update "priceMin" "abc") =
      filteredAssets id [sampleAsset "a" 5 none] false []
        ((sampleOptions "" "100" "").update "priceMin" "") :=
  ⟨parseFloat_abc,
    filteredAssets_nan_bound id [sampleAsset "a" 5 none] false [] (sampleOptions "" "100" "")
      "priceMin" "abc" (Or.inl rfl) parseFloat_abc⟩

/-- C8: `requestSort(k')` yields key `k'`, with the direction flipped when `k'`
is the current key and `asc` otherwise; two calls with the current key restore
the sort configuration (and the whole state). -/
theorem requestSort_spec (s : ViewState) (key : String) :
    (requestSort s key).sortConfig =
      { key := key,
        direction := if key = s.sortConfig.key then s.sortConfig.direction.toggle
          else Direction.asc } ∧
    requestSort (requestSort s s.sortConfig.key) s.sortConfig.key = s := by
  obtain ⟨sof, ⟨k, d⟩, cp, ipp, fo, fopen⟩ := s
  constructor
  · by_cases h : key = k
    · subst h
      cases d <;> simp [requestSort, Direction.toggle]
    · have h' : ¬ k = key := fun e => h e.symm
      simp [requestSort, h, h']
  · cases d <;> simp [requestSort]

/-- C9: `handleFilterChange` sets the field called `name` to `value`, keeps
the other three fields of `filterOptions`, keeps the sort configuration, the
page size and `showOnlyFavorites`, and sets `currentPage` to 1 whatever it was;
setting `searchTerm` to "bit" on page 3 gives page 1. -/
theorem handleFilterChange_spec (s : ViewState) (name value : String) :
    (handleFilterChange s name value).currentPage = 1 ∧
    (handleFilterChange s name value).filterOptions.priceMin =
      (if name = "priceMin" then value else s.filterOptions.priceMin) ∧
    (handleFilterChange s name value).filterOptions.priceMax =
      (if name = "priceMax" then value else s.filterOptions.priceMax) ∧
    (handleFilterChange s name value).filterOptions.percentChangeMin =
      (if name = "percentChangeMin" then value else s.filterOptions.percentChangeMin) ∧
    (handleFilterChange s name value).filterOptions.searchTerm =
      (if name = "searchTerm" then value else s.filterOptions.searchTerm) ∧
    (handleFilterChange s name value).sortConfig = s.sortConfig ∧
    (handleFilterChange s name value).itemsPerPage = s.itemsPerPage ∧
    (handleFilterChange s name value).showOnlyFavorites = s.showOnlyFavorites ∧
    (handleFilterChange s name value).isFilterOpen = s.isFilterOpen ∧
    (handleFilterChange { initialState with currentPage := 3 } "searchTerm" "bit").currentPage
      = 1 ∧
    (handleFilterChange { initialState with currentPage := 3 } "searchTerm"
      "bit").filterOptions.searchTerm = "bit" := by
  refine ⟨rfl, ?_, ?_, ?_, ?_, rfl, rfl, rfl, rfl, rfl, ?_⟩
  · by_cases h1 : name = "priceMin"
    · simp [handleFilterChange, FilterOptions.update, h1]
    · simp only [handleFilterChange, FilterOptions.update, h1, if_false]
      split_ifs <;> rfl
  · by_cases h1 : name = "priceMin"
    · subst h1
      simp [handleFilterChange, FilterOptions.update]
    · simp only [handleFilterChange, FilterOptions.update, h1, if_false]
      split_ifs <;> rfl
  · by_cases h1 : name = "priceMin"
    · subst h1
      simp [handleFilterChange, FilterOptions.update]
    · simp only [handleFilterChange, FilterOptions.update, h1, if_false]
      by_cases h2 : name = "priceMax"
      · subst h2
        simp
      · simp only [h2, if_false]
        split_ifs <;> rfl
  · by_cases h1 : name = "priceMin"
    · subst h1
      simp [handleFilterChange, FilterOptions.update]
    · simp only [handleFilterChange, FilterOptions.update, h1, if_false]
      by_cases h2 : name = "priceMax"
      · subst h2
        simp
      · simp only [h2, if_false]
        by_cases h3 : name = "percentChangeMin"
        · subst h3
          simp
        · simp only [h3, if_false]
          split_ifs <;> rfl
  · simp [handleFilterChange, FilterOptions.update, initialState]

/-- C10 (as stated, refuted): `handlePageChange(0)` on the initial state leaves
`currentPage` at 0, which is below 1. -/
theorem handlePageChange_below_one_counterexample :
    (handlePageChange initialState 0).currentPage = 0 ∧
    ¬ (1 ≤ (handlePageChange initialState 0).currentPage) := by
  simp [handlePageChange]

/-- C10 (amended): `handlePageChange(n)` stores `n` as `currentPage` for every
`n` and changes nothing else; a page below 1 is kept out by the Previous
button, which is disabled on page 1, so from a page that is at least 1 a click
on Previous leaves `currentPage` at least 1. -/
theorem handlePageChange_stores_page (s : ViewState) (n : Int) (h : 1 ≤ s.currentPage) :
    handlePageChange s n = { s with currentPage := n } ∧
    1 ≤ (clickPrevious s).currentPage := by
  refine ⟨rfl, ?_⟩
  unfold clickPrevious
  split
  · exact h
  · rename_i hne
    simp only [handlePageChange]
    omega

/-- C10 (amended) at page 2 with `n = 0`: the page becomes 0 by
`handlePageChange(0)`, and 1 by a click on Previous. -/
theorem handlePageChange_stores_page_witness :
    (1 : Int) ≤ ({ initialState with currentPage := 2 } : ViewState).currentPage ∧
    handlePageChange { initialState with currentPage := 2 } 0 =
      { initialState with currentPage := 0 } ∧
    1 ≤ (clickPrevious { initialState with currentPage := 2 }).currentPage :=
  ⟨by decide, handlePageChange_stores_page { initialState with currentPage := 2 } 0 (by decide)⟩


/-! ## Facts about the formatters -/

theorem decimalDigits_lt (n : Nat) (h : n < 10) : decimalDigits n = [Nat.digitChar n] := by
  rw [decimalDigits]
  simp [h]

theorem decimalDigits_ge (n : Nat) (h : 10 ≤ n) :
    decimalDigits n = decimalDigits (n / 10) ++ [Nat.digitChar (n % 10)] := by
  rw [decimalDigits]
  simp [Nat.not_lt.mpr h]

theorem decimalDigits_length_pos (n : Nat) : 0 < (decimalDigits n).length := by
  by_cases h : n < 10
  · simp [decimalDigits_lt n h]
  · rw [decimalDigits_ge n (Nat.not_lt.mp h)]
    simp

/-- The padded digits of `n` split into the digits of `n / 100` and the two
last digits. -/
theorem padded_split (n : Nat) :
    List.replicate (2 + 1 - (decimalDigits n).length) '0' ++ decimalDigits n =
      decimalDigits (n / 100) ++ [Nat.digitChar (n % 100 / 10), Nat.digitChar (n % 10)] := by
  by_cases h1 : n < 10
  · have h2 : n / 100 = 0 := by omega
    have h3 : n % 100 / 10 = 0 := by omega
    have h4 : n % 10 = n := by omega
    rw [decimalDigits_lt n h1, h2, h3, h4, decimalDigits_lt 0 (by omega)]
    rfl
  · have h1' : 10 ≤ n := Nat.not_lt.mp h1
    by_cases h2 : n < 100
    · have h3 : n / 100 = 0 := by omega
      have h4 : n % 100 / 10 = n / 10 := by omega
      rw [decimalDigits_ge n h1', decimalDigits_lt (n / 10) (by omega), h3, h4,
        decimalDigits_lt 0 (by omega)]
      rfl
    · have h2' : 100 ≤ n := Nat.not_lt.mp h2
      have h3 : n / 10 / 10 = n / 100 := by omega
      have h4 : n / 10 % 10 = n % 100 / 10 := by omega
      have hpos := decimalDigits_length_pos (n / 100)
      rw [decimalDigits_ge n h1', decimalDigits_ge (n / 10) (by omega), h3, h4]
      have hlen : 2 + 1 - (decimalDigits (n / 100) ++ [Nat.digitChar (n % 100 / 10)] ++
          [Nat.digitChar (n % 10)]).length = 0 := by
        simp only [List.length_append, List.length_singleton]
        omega
      rw [hlen]
      simp

theorem fixedDigits_two (x : ℚ) : fixedDigits x 2 = twoDecimals x := by
  have h100 : x * 10 ^ 2 + 1 / 2 = x * 100 + 1 / 2 := by norm_num
  simp only [fixedDigits, twoDecimals, h100]
  rw [if_neg (by decide)]
  rw [padded_split]
  have hlen : (decimalDigits (⌊x * 100 + 1 / 2⌋.toNat / 100) ++
      [Nat.digitChar (⌊x * 100 + 1 / 2⌋.toNat % 100 / 10),
        Nat.digitChar (⌊x * 100 + 1 / 2⌋.toNat % 10)]).length - 2 =
      (decimalDigits (⌊x * 100 + 1 / 2⌋.toNat / 100)).length := by
    simp
  rw [hlen, List.take_left', List.drop_left']
  · apply String.ext
    simp only [String.data_append, List.append_assoc]
    rfl
  · rfl
  · rfl

theorem toFixed_of_nonneg_of_lt (ts : ℚ → String) (x : ℚ) (f : Nat) (h0 : 0 ≤ x)
    (h1 : x < 10 ^ 21) : toFixed ts x f = fixedDigits x f := by
  unfold toFixed
  rw [if_neg (not_lt.mpr h0), if_neg (not_le.mpr h1)]

theorem toFixed_two (ts : ℚ → String) (x : ℚ) (h0 : 0 ≤ x) (h1 : x < 10 ^ 21) :
    toFixed ts x 2 = twoDecimals x := by
  rw [toFixed_of_nonneg_of_lt ts x 2 h0 h1, fixedDigits_two]

theorem twoDecimals_of_floor (x : ℚ) (n : Nat) (h : ⌊x * 100 + 1 / 2⌋ = (n : ℤ)) :
    twoDecimals x = String.mk (decimalDigits (n / 100) ++
      ['.', Nat.digitChar (n % 100 / 10), Nat.digitChar (n % 10)]) := by
  simp only [twoDecimals, h, Int.toNat_ofNat]

theorem twoDecimals_1 : twoDecimals 1 = "1.00" := by
  rw [twoDecimals_of_floor 1 100 (by rw [Int.floor_eq_iff]; norm_num)]
  simp [decimalDigits, Nat.digitChar]

theorem twoDecimals_999 : twoDecimals 999 = "999.00" := by
  rw [twoDecimals_of_floor 999 99900 (by rw [Int.floor_eq_iff]; norm_num)]
  simp [decimalDigits, Nat.digitChar]

theorem twoDecimals_1000 : twoDecimals 1000 = "1000.00" := by
  rw [twoDecimals_of_floor 1000 100000 (by rw [Int.floor_eq_iff]; norm_num)]
  simp [decimalDigits, Nat.digitChar]

theorem twoDecimals_1e21 :
    twoDecimals 1000000000000000000000 = "1000000000000000000000.00" := by
  rw [twoDecimals_of_floor _ 100000000000000000000000 (by rw [Int.floor_eq_iff]; norm_num)]
  simp [decimalDigits, Nat.digitChar]

theorem twoDecimals_1e22 :
    twoDecimals 10000000000000000000000 = "10000000000000000000000.00" := by
  rw [twoDecimals_of_floor _ 1000000000000000000000000 (by rw [Int.floor_eq_iff]; norm_num)]
  simp [decimalDigits, Nat.digitChar]

theorem toFixed_of_large (ts : ℚ → String) (x : ℚ) (f : Nat) (h : 10 ^ 21 ≤ x) :
    toFixed ts x f = ts x := by
  unfold toFixed
  rw [if_neg (not_lt.mpr (le_trans (by norm_num) h)), if_pos h]

theorem jsDiv_of_ne_zero (a b : ℚ) (hb : b ≠ 0) : jsDiv a b = roundBinary64 (a / b) := by
  simp [jsDiv, hb]

theorem toFixed_num_two (ts : ℚ → String) (q : ℚ) (h0 : 0 ≤ q) (h1 : q < 10 ^ 21) :
    (JSNum.num q).toFixed ts 2 = twoDecimals q := by
  simp only [JSNum.toFixed]
  exact toFixed_two ts q h0 h1

/-- A non-negative value below `2^10` has a finite binary64 quotient by a
positive constant when the exact quotient is below `2^10`, and that quotient is
written by `toFixed(2)` to two decimals. -/
theorem scaled_small (ts : ℚ → String) (v c : ℚ) (h0 : 0 ≤ v) (hc : 0 < c)
    (hlt : v / c < (2 : ℚ) ^ (10 : ℤ)) :
    ∃ q, jsDiv v c = .num q ∧ (jsDiv v c).toFixed ts 2 = twoDecimals q := by
  obtain ⟨q, hq, hq0, hq1⟩ :=
    roundBinary64_le_two_zpow (v / c) 10 (div_nonneg h0 hc.le) hlt (by norm_num) (by norm_num)
  refine ⟨q, by rw [jsDiv_of_ne_zero v c hc.ne', hq], ?_⟩
  rw [jsDiv_of_ne_zero v c hc.ne', hq]
  exact toFixed_num_two ts q hq0 (lt_of_le_of_lt hq1 (by norm_num))

theorem twoDecimals_1005 :
    twoDecimals (4526117625507348 / 4503599627370496) = "1.00" := by
  rw [twoDecimals_of_floor _ 100 (by rw [Int.floor_eq_iff]; norm_num)]
  simp [decimalDigits, Nat.digitChar]

theorem roundBinary64_1005 :
    roundBinary64 (1005000 / 1000000) = .num (4526117625507348 / 4503599627370496) := by
  have h := roundBinary64_eq (1005000 / 1000000) 0 4526117625507348 (by norm_num) (by norm_num)
    (by norm_num) (by norm_num) (by
      unfold roundHalfEven
      have hf : ⌊(1005000 / 1000000 : ℚ) / (2 : ℚ) ^ ((0 : ℤ) - 52)⌋ = 4526117625507348 := by
        rw [Int.floor_eq_iff]; norm_num
      rw [hf, if_pos (by norm_num)]) (by norm_num)
  rw [h]
  norm_num

theorem roundBinary64_1e34_quotient :
    roundBinary64 (9999999999999999455752309870428160 / 1000000000000) =
      .num 10000000000000000000000 := by
  have h := roundBinary64_eq (9999999999999999455752309870428160 / 1000000000000) 73
    4768371582031250 (by norm_num) (by norm_num) (by norm_num) (by norm_num) (by
      unfold roundHalfEven
      have hf : ⌊(9999999999999999455752309870428160 / 1000000000000 : ℚ) /
          (2 : ℚ) ^ ((73 : ℤ) - 52)⌋ = 4768371582031249 := by
        rw [Int.floor_eq_iff]; norm_num
      rw [hf, if_neg (by norm_num), if_pos (by norm_num)]
      norm_num) (by norm_num)
  rw [h]
  norm_num

/-! ## Claims on the formatters and on the reachable states -/

/-- C11 (as stated, refuted): for v = 1e34 (the binary64 value
9999999999999999455752309870428160) the quotient v/1e12 computed by the code is
1e22, which is not below 1e21, so `toFixed(2)` returns the exponential form of
Number::toString ("1e+22") and `formatLargeNumber` gives "$1e+22T", not the
quotient to two decimals. -/
theorem formatLargeNumber_huge_counterexample :
    jsDiv 9999999999999999455752309870428160 1000000000000 =
      .num 10000000000000000000000 ∧
    formatLargeNumber (fun _ => "1e+22") 9999999999999999455752309870428160 = "$1e+22T" ∧
    "$" ++ twoDecimals 10000000000000000000000 ++ "T" = "$10000000000000000000000.00T" ∧
    formatLargeNumber (fun _ => "1e+22") 9999999999999999455752309870428160 ≠
      "$" ++ twoDecimals 10000000000000000000000 ++ "T" := by
  have h0 : jsDiv 9999999999999999455752309870428160 1000000000000 =
      .num 10000000000000000000000 := by
    rw [jsDiv_of_ne_zero _ _ (by norm_num), roundBinary64_1e34_quotient]
  have h1 : formatLargeNumber (fun _ => "1e+22") 9999999999999999455752309870428160 =
      "$1e+22T" := by
    unfold formatLargeNumber
    rw [if_pos (by norm_num), h0]
    simp only [JSNum.toFixed]
    rw [toFixed_of_large _ _ _ (by norm_num)]
    rfl
  have h2 : "$" ++ twoDecimals 10000000000000000000000 ++ "T" =
      "$10000000000000000000000.00T" := by
    rw [twoDecimals_1e22]
    rfl
  refine ⟨h0, h1, h2, ?_⟩
  rw [h1, h2]
  decide

/-- C11 (amended): for every non-negative number v, `formatLargeNumber(v)` is
'$', the scaled value to exactly 2 decimals and the suffix, where the scaled
value is the quotient the code computes (in binary64): v/1e12 and 'T' when
v >= 1e12, provided that quotient is below 1e21; v/1e9 and 'B' when
1e9 <= v < 1e12; v/1e6 and 'M' when 1e6 <= v < 1e9; v/1e3 and 'K' when
1e3 <= v < 1e6; and v itself with no suffix when v < 1e3. The thresholds are
inclusive: `formatLargeNumber(1000000000)` is "$1.00B" and
`formatLargeNumber(999)` is "$999.00"; `formatLargeNumber(1005000)` is "$1.00M",
the quotient being just below 1.005. -/
theorem formatLargeNumber_spec (ts : ℚ → String) (v : ℚ) (h0 : 0 ≤ v) :
    (∀ q, 1000000000000 ≤ v → jsDiv v 1000000000000 = .num q → q < 10 ^ 21 →
      formatLargeNumber ts v = "$" ++ twoDecimals q ++ "T") ∧
    (1000000000 ≤ v → v < 1000000000000 →
      ∃ q, jsDiv v 1000000000 = .num q ∧
        formatLargeNumber ts v = "$" ++ twoDecimals q ++ "B") ∧
    (1000000 ≤ v → v < 1000000000 →
      ∃ q, jsDiv v 1000000 = .num q ∧
        formatLargeNumber ts v = "$" ++ twoDecimals q ++ "M") ∧
    (1000 ≤ v → v < 1000000 →
      ∃ q, jsDiv v 1000 = .num q ∧
        formatLargeNumber ts v = "$" ++ twoDecimals q ++ "K") ∧
    (v < 1000 → formatLargeNumber ts v = "$" ++ twoDecimals v) ∧
    formatLargeNumber ts 1000000000 = "$1.00B" ∧
    formatLargeNumber ts 999 = "$999.00" ∧
    formatLargeNumber ts 1005000 = "$1.00M" := by
  refine ⟨?_, ?_, ?_, ?_, ?_, ?_, ?_, ?_⟩
  · intro q hge hq hlt
    have hq0 : 0 ≤ q := by
      rw [jsDiv_of_ne_zero _ _ (by norm_num)] at hq
      exact roundBinary64_nonneg _ q (div_nonneg h0 (by norm_num)) hq
    unfold formatLargeNumber
    rw [if_pos hge, hq, toFixed_num_two ts q hq0 hlt]
  · intro hge hlt
    obtain ⟨q, hq, hfix⟩ := scaled_small ts v 1000000000 h0 (by norm_num) (by
      rw [div_lt_iff₀ (by norm_num)]
      norm_num
      linarith)
    refine ⟨q, hq, ?_⟩
    unfold formatLargeNumber
    rw [if_neg (not_le.mpr hlt), if_pos hge, hfix]
  · intro hge hlt
    obtain ⟨q, hq, hfix⟩ := scaled_small ts v 1000000 h0 (by norm_num) (by
      rw [div_lt_iff₀ (by norm_num)]
      norm_num
      linarith)
    refine ⟨q, hq, ?_⟩
    unfold formatLargeNumber
    rw [if_neg (not_le.mpr (by linarith)), if_neg (not_le.mpr hlt), if_pos hge, hfix]
  · intro hge hlt
    obtain ⟨q, hq, hfix⟩ := scaled_small ts v 1000 h0 (by norm_num) (by
      rw [div_lt_iff₀ (by norm_num)]
      norm_num
      linarith)
    refine ⟨q, hq, ?_⟩
    unfold formatLargeNumber
    rw [if_neg (not_le.mpr (by linarith)), if_neg (not_le.mpr (by linarith)),
      if_neg (not_le.mpr hlt), if_pos hge, hfix]
  · intro hlt
    unfold formatLargeNumber
    rw [if_neg (not_le.mpr (by linarith)), if_neg (not_le.mpr (by linarith)),
      if_neg (not_le.mpr (by linarith)), if_neg (not_le.mpr hlt),
      toFixed_two ts v h0 (by linarith)]
  · have hq : jsDiv 1000000000 1000000000 = .num 1 := by
      rw [jsDiv_of_ne_zero _ _ (by norm_num)]
      have : (1000000000 : ℚ) / 1000000000 = 1 := by norm_num
      rw [this, roundBinary64_1]
    unfold formatLargeNumber
    rw [if_neg (by norm_num), if_pos (by norm_num), hq,
      toFixed_num_two ts 1 (by norm_num) (by norm_num), twoDecimals_1]
    rfl
  · unfold formatLargeNumber
    rw [if_neg (by norm_num), if_neg (by norm_num), if_neg (by norm_num), if_neg (by norm_num),
      toFixed_two ts 999 (by norm_num) (by norm_num), twoDecimals_999]
    rfl
  · have hq : jsDiv 1005000 1000000 = .num (4526117625507348 / 4503599627370496) := by
      rw [jsDiv_of_ne_zero _ _ (by norm_num), roundBinary64_1005]
    unfold formatLargeNumber
    rw [if_neg (by norm_num), if_neg (by norm_num), if_pos (by norm_num), hq,
      toFixed_num_two ts _ (by norm_num) (by norm_num), twoDecimals_1005]
    rfl

/-- C11 (amended) at v = 2500000: the M branch. -/
theorem formatLargeNumber_spec_witness :
    (0 : ℚ) ≤ 2500000 ∧
    ∃ q, jsDiv 2500000 1000000 = .num q ∧
      formatLargeNumber (fun _ => "") 2500000 = "$" ++ twoDecimals q ++ "M" :=
  ⟨by norm_num,
    (formatLargeNumber_spec (fun _ => "") 2500000 (by norm_num)).2.2.1 (by norm_num)
      (by norm_num)⟩

theorem stripDollar_dollar_append (t : String) : stripDollar ("$" ++ t) = t := by
  simp [stripDollar, String.data_append]

theorem formatSupply_num (ts : ℚ → String) (v : ℚ) (s : String) (hv : 0 < v) :
    formatSupply ts (.number (.num v)) s =
      (if 1000000000 ≤ v then (roundBinary64 (v / 1000000000)).toFixed ts 2 ++ "B " ++ s
       else if 1000000 ≤ v then (roundBinary64 (v / 1000000)).toFixed ts 2 ++ "M " ++ s
       else if 1000 ≤ v then (roundBinary64 (v / 1000)).toFixed ts 2 ++ "K " ++ s
       else toFixed ts v 2 ++ " " ++ s) := by
  simp [formatSupply, JSNum.falsy, JSNum.ge, JSNum.divBy, JSNum.toFixed, hv.ne']

/-- C12 (the code at the failing input): at v = 1e12 `formatSupply` has no T
branch and gives "1000.00B BTC", while `formatLargeNumber` gives "$1.00T",
i.e. "1.00T BTC" once the '$' is removed and " BTC" appended. -/
theorem formatSupply_trillion_counterexample :
    formatSupply (fun _ => "") (.number (.num 1000000000000)) "BTC" = "1000.00B BTC" ∧
    stripDollar (formatLargeNumber (fun _ => "") 1000000000000) ++ " " ++ "BTC" =
      "1.00T BTC" ∧
    formatSupply (fun _ => "") (.number (.num 1000000000000)) "BTC" ≠
      stripDollar (formatLargeNumber (fun _ => "") 1000000000000) ++ " " ++ "BTC" := by
  have h1 : formatSupply (fun _ => "") (.number (.num 1000000000000)) "BTC" =
      "1000.00B BTC" := by
    have hq : (1000000000000 : ℚ) / 1000000000 = 1000 := by norm_num
    rw [formatSupply_num _ _ _ (by norm_num), if_pos (by norm_num), hq, roundBinary64_1000,
      toFixed_num_two _ _ (by norm_num) (by norm_num), twoDecimals_1000]
    rfl
  have h2 : stripDollar (formatLargeNumber (fun _ => "") 1000000000000) ++ " " ++ "BTC" =
      "1.00T BTC" := by
    have hq : jsDiv 1000000000000 1000000000000 = .num 1 := by
      rw [jsDiv_of_ne_zero _ _ (by norm_num)]
      have : (1000000000000 : ℚ) / 1000000000000 = 1 := by norm_num
      rw [this, roundBinary64_1]
    unfold formatLargeNumber
    rw [if_pos (by norm_num), hq, toFixed_num_two _ 1 (by norm_num) (by norm_num),
      twoDecimals_1]
    rfl
  refine ⟨h1, h2, ?_⟩
  rw [h1, h2]
  decide

/-- Below 1e12 the two formatters use the same scaled value and suffix: for a
positive v below 1e12, `formatSupply(v, s)` is `formatLargeNumber(v)` with the
leading '$' removed and ' ' + s appended. -/
theorem formatSupply_eq_formatLargeNumber (ts : ℚ → String) (v : ℚ) (s : String)
    (hv : 0 < v) (hlt : v < 1000000000000) :
    formatSupply ts (.number (.num v)) s =
      stripDollar (formatLargeNumber ts v) ++ " " ++ s := by
  rw [formatSupply_num ts v s hv]
  unfold formatLargeNumber
  rw [if_neg (not_le.mpr hlt), jsDiv_of_ne_zero v 1000000000 (by norm_num),
    jsDiv_of_ne_zero v 1000000 (by norm_num), jsDiv_of_ne_zero v 1000 (by norm_num)]
  split_ifs
  · rw [String.append_assoc "$", stripDollar_dollar_append]
    simp only [String.append_assoc]
    rfl
  · rw [String.append_assoc "$", stripDollar_dollar_append]
    simp only [String.append_assoc]
    rfl
  · rw [String.append_assoc "$", stripDollar_dollar_append]
    simp only [String.append_assoc]
    rfl
  · rw [stripDollar_dollar_append]

theorem space_mem_append (a b s : String) (hb : ' ' ∈ b.data) :
    ' ' ∈ (a ++ b ++ s).data := by
  simp only [String.data_append, List.mem_append]
  exact Or.inl (Or.inr hb)

/-- C13: `formatSupply(null, s)`, `formatSupply(undefined, s)` and
`formatSupply(0, s)` are the sentinel 'N/A', and for a positive finite v
`formatSupply(v, s)` is not the sentinel. -/
theorem formatSupply_sentinel (ts : ℚ → String) (s : String) (v : ℚ) (hv : 0 < v) :
    formatSupply ts .null s = "N/A" ∧
    formatSupply ts .undefined s = "N/A" ∧
    formatSupply ts (.number (.num 0)) s = "N/A" ∧
    formatSupply ts (.number (.num 0)) "BTC" = "N/A" ∧
    formatSupply ts (.number (.num v)) s ≠ "N/A" := by
  refine ⟨rfl, rfl, ?_, ?_, ?_⟩
  · simp [formatSupply, JSNum.falsy]
  · simp [formatSupply, JSNum.falsy]
  · intro h
    have hmem : ' ' ∈ (formatSupply ts (.number (.num v)) s).data := by
      rw [formatSupply_num ts v s hv]
      split_ifs
      · exact space_mem_append _ "B " s (by decide)
      · exact space_mem_append _ "M " s (by decide)
      · exact space_mem_append _ "K " s (by decide)
      · exact space_mem_append _ " " s (by decide)
    rw [h] at hmem
    revert hmem
    decide

/-- C13 at v = 1000 with the symbol "BTC". -/
theorem formatSupply_sentinel_witness :
    (0 : ℚ) < 1000 ∧
    formatSupply (fun _ => "") (.number (.num 0)) "BTC" = "N/A" ∧
    formatSupply (fun _ => "") (.number (.num 1000)) "BTC" ≠ "N/A" :=
  ⟨by norm_num,
    (formatSupply_sentinel (fun _ => "") "BTC" 1000 (by norm_num)).2.2.1,
    (formatSupply_sentinel (fun _ => "") "BTC" 1000 (by norm_num)).2.2.2.2⟩

/-- C14 (the code at the failing input): with price 0 and volume24h 1000 the
quotient is Infinity, which is not falsy, so the turnover line is
"InfinityB BTC" and not the sentinel; with price 0 and volume24h 0 the quotient
is NaN and the line is 'N/A'. -/
theorem turnoverText_zero_price :
    turnoverText (fun _ => "") { sampleAsset "BTC" 0 none with volume24h := 1000 } =
      "InfinityB BTC" ∧
    turnoverText (fun _ => "") { sampleAsset "BTC" 0 none with volume24h := 1000 } ≠ "N/A" ∧
    turnoverText (fun _ => "") { sampleAsset "BTC" 0 none with volume24h := 0 } = "N/A" := by
  have h1 : turnoverText (fun _ => "") { sampleAsset "BTC" 0 none with volume24h := 1000 } =
      "InfinityB BTC" := by
    simp [turnoverText, sampleAsset, jsDiv, formatSupply, JSNum.falsy, JSNum.ge, JSNum.divBy,
      JSNum.toFixed]
  refine ⟨h1, ?_, ?_⟩
  · rw [h1]
    decide
  · simp [turnoverText, sampleAsset, jsDiv, formatSupply, JSNum.falsy]

/-- C15 (as stated, refuted): for v = -5, whose absolute value is not below
1, `formatPrice` asks for minimum 4 and maximum 6 fraction digits, not for 2,
because the test is `price < 1`. -/
theorem formatPriceOptions_negative_counterexample :
    ¬ (|(-5 : ℚ)| < 1) ∧
    (formatPriceOptions (-5)).minimumFractionDigits = 4 ∧
    (formatPriceOptions (-5)).maximumFractionDigits = 6 := by
  refine ⟨by norm_num, ?_, ?_⟩ <;> norm_num [formatPriceOptions]

/-- C15 (amended): `formatPrice` formats v as USD in the en-US locale with
minimum 4 and maximum 6 fraction digits when v < 1 and with exactly 2 when
v >= 1. For v > -1, so for every non-negative v, that is 4 to 6 when |v| < 1
and 2 when |v| >= 1; every v <= -1 gets 4 to 6; v = 0 gets 4 to 6. -/
theorem formatPrice_spec (numberFormat : String → NumberFormatOptions → ℚ → String)
    (v : ℚ) (hv : -1 < v) :
    formatPrice numberFormat v =
      numberFormat "en-US"
        { style := "currency", currency := "USD",
          minimumFractionDigits := if |v| < 1 then 4 else 2,
          maximumFractionDigits := if |v| < 1 then 6 else 2 } v ∧
    (∀ w : ℚ, w ≤ -1 → formatPrice numberFormat w =
      numberFormat "en-US"
        { style := "currency", currency := "USD",
          minimumFractionDigits := 4, maximumFractionDigits := 6 } w) ∧
    formatPrice numberFormat 0 =
      numberFormat "en-US"
        { style := "currency", currency := "USD",
          minimumFractionDigits := 4, maximumFractionDigits := 6 } 0 := by
  refine ⟨?_, ?_, ?_⟩
  · have h : |v| < 1 ↔ v < 1 := by
      rw [abs_lt]
      exact ⟨fun h => h.2, fun h => ⟨hv, h⟩⟩
    simp only [formatPrice, formatPriceOptions, h]
  · intro w hw
    have h : w < 1 := by linarith
    simp [formatPrice, formatPriceOptions, h]
  · simp [formatPrice, formatPriceOptions]

/-- C15 (amended) at v = 5, which gets exactly 2 fraction digits. -/
theorem formatPrice_spec_witness :
    (-1 : ℚ) < 5 ∧
    formatPrice (fun _ o _ => toString o.minimumFractionDigits) 5 =
      toString (if |(5 : ℚ)| < 1 then 4 else 2) :=
  ⟨by norm_num, (formatPrice_spec (fun _ o _ => toString o.minimumFractionDigits) 5
    (by norm_num)).1⟩

theorem digitChar_ne_minus (d : Nat) (h : d < 10) : Nat.digitChar d ≠ '-' := by
  interval_cases d <;> decide

theorem decimalDigits_no_minus (n : Nat) : '-' ∉ decimalDigits n := by
  induction n using Nat.strong_induction_on with
  | _ n ih =>
    by_cases h : n < 10
    · rw [decimalDigits_lt n h]
      simp only [List.mem_singleton]
      exact fun e => digitChar_ne_minus n h e.symm
    · rw [decimalDigits_ge n (Nat.not_lt.mp h)]
      simp only [List.mem_append, List.mem_singleton, not_or]
      exact ⟨ih (n / 10) (by omega), fun e => digitChar_ne_minus (n % 10) (by omega) e.symm⟩

theorem twoDecimals_no_minus (x : ℚ) : '-' ∉ (twoDecimals x).data := by
  simp only [twoDecimals, List.mem_append, List.mem_cons, List.mem_singleton,
    List.not_mem_nil, or_false, not_or]
  refine ⟨decimalDigits_no_minus _, by decide, ?_, ?_⟩
  · exact fun e => digitChar_ne_minus _ (by omega) e.symm
  · exact fun e => digitChar_ne_minus _ (by omega) e.symm

theorem twoDecimals_0 : twoDecimals 0 = "0.00" := by
  rw [twoDecimals_of_floor 0 0 (by rw [Int.floor_eq_iff]; norm_num)]
  simp [decimalDigits, Nat.digitChar]

/-- C16 (as stated, refuted): for v = 1e21 `toFixed(2)` returns the
exponential form of Number::toString ("1e+21"), so the rendered text is
"1e+21%" and not the value to two decimals. -/
theorem renderPercentChange_huge_counterexample :
    renderPercentChange (fun _ => "1e+21") (.number (.num 1000000000000000000000)) =
      .span "text-green-500 font-medium px-2 py-1 rounded-md bg-green-50 inline-flex items-center"
        "▲" "1e+21%" ∧
    twoDecimals |(1000000000000000000000 : ℚ)| ++ "%" = "1000000000000000000000.00%" ∧
    ("1e+21%" : String) ≠ "1000000000000000000000.00%" := by
  have ha : |(1000000000000000000000 : ℚ)| = 1000000000000000000000 :=
    abs_of_nonneg (by norm_num)
  refine ⟨?_, ?_, by decide⟩
  · have hpos : decide ((0 : ℚ) ≤ 1000000000000000000000) = true := by
      rw [decide_eq_true_eq]
      norm_num
    simp only [renderPercentChange, JSNum.ge, JSNum.abs, JSNum.toFixed, ha, hpos, if_true]
    rw [toFixed_of_large _ _ _ (by norm_num)]
    rfl
  · rw [ha, twoDecimals_1e21]
    rfl

/-- C16 (amended): `renderPercentChange` returns 'N/A' for null and for
undefined; for every other number v with |v| below 1e21 it renders |v| to
exactly 2 decimals followed by '%', with the up indicator ('▲', green) when
v >= 0 and the down indicator ('▼', red) otherwise; v = 0 is up, and the
rendered magnitude has no minus sign. -/
theorem renderPercentChange_spec (ts : ℚ → String) (v : ℚ) (hv : |v| < 10 ^ 21) :
    renderPercentChange ts .null = .text "N/A" ∧
    renderPercentChange ts .undefined = .text "N/A" ∧
    renderPercentChange ts (.number (.num v)) =
      (if 0 ≤ v then
        .span "text-green-500 font-medium px-2 py-1 rounded-md bg-green-50 inline-flex items-center"
          "▲" (twoDecimals |v| ++ "%")
       else
        .span "text-red-500 font-medium px-2 py-1 rounded-md bg-red-50 inline-flex items-center"
          "▼" (twoDecimals |v| ++ "%")) ∧
    renderPercentChange ts (.number (.num 0)) =
      .span "text-green-500 font-medium px-2 py-1 rounded-md bg-green-50 inline-flex items-center"
        "▲" "0.00%" ∧
    '-' ∉ (twoDecimals |v| ++ "%").data := by
  have key : ∀ w : ℚ, |w| < 10 ^ 21 → renderPercentChange ts (.number (.num w)) =
      (if 0 ≤ w then
        .span "text-green-500 font-medium px-2 py-1 rounded-md bg-green-50 inline-flex items-center"
          "▲" (twoDecimals |w| ++ "%")
       else
        .span "text-red-500 font-medium px-2 py-1 rounded-md bg-red-50 inline-flex items-center"
          "▼" (twoDecimals |w| ++ "%")) := by
    intro w hw
    simp only [renderPercentChange, JSNum.ge, JSNum.abs, JSNum.toFixed]
    rw [toFixed_two ts |w| (abs_nonneg w) hw]
    by_cases h : 0 ≤ w
    · simp only [h, decide_True, if_true]
      rfl
    · simp only [h, decide_False, if_false]
      rfl
  refine ⟨rfl, rfl, key v hv, ?_, ?_⟩
  · rw [key 0 (by norm_num), if_pos (le_refl _), abs_zero, twoDecimals_0]
    rfl
  · rw [String.data_append, List.mem_append, not_or]
    exact ⟨twoDecimals_no_minus _, by decide⟩

/-- C16 (amended) at v = -1, rendered as down with the magnitude of 1. -/
theorem renderPercentChange_spec_witness :
    |(-1 : ℚ)| < 10 ^ 21 ∧
    renderPercentChange (fun _ => "") (.number (.num (-1))) =
      (if (0 : ℚ) ≤ -1 then
        .span "text-green-500 font-medium px-2 py-1 rounded-md bg-green-50 inline-flex items-center"
          "▲" (twoDecimals |(-1 : ℚ)| ++ "%")
       else
        .span "text-red-500 font-medium px-2 py-1 rounded-md bg-red-50 inline-flex items-center"
          "▼" (twoDecimals |(-1 : ℚ)| ++ "%")) :=
  ⟨by norm_num, (renderPercentChange_spec (fun _ => "") (-1) (by norm_num)).2.2.1⟩

theorem step_invariant (s : ViewState) (a : Action)
    (h : 1 ≤ s.currentPage ∧ s.itemsPerPage ∈ ([5, 10, 25, 50] : List Int)) :
    1 ≤ (step s a).currentPage ∧ (step s a).itemsPerPage ∈ ([5, 10, 25, 50] : List Int) := by
  obtain ⟨hp, hi⟩ := h
  cases a with
  | next =>
    refine ⟨?_, hi⟩
    simp only [step, clickNext, handlePageChange]
    omega
  | previous =>
    simp only [step, clickPrevious]
    split
    · exact ⟨hp, hi⟩
    · rename_i hne
      refine ⟨?_, hi⟩
      simp only [handlePageChange]
      omega
  | selectPageSize o =>
    refine ⟨le_refl _, ?_⟩
    cases o <;> simp [step, handleItemsPerPageChange, PageSizeOption.value]
  | editFilter name value => exact ⟨le_refl _, hi⟩
  | reset => exact ⟨le_refl _, hi⟩
  | sort key => exact ⟨hp, hi⟩
  | toggleFavorites => exact ⟨hp, hi⟩
  | toggleFilterPanel => exact ⟨hp, hi⟩

theorem run_invariant (actions : List Action) (s : ViewState)
    (h : 1 ≤ s.currentPage ∧ s.itemsPerPage ∈ ([5, 10, 25, 50] : List Int)) :
    1 ≤ (run s actions).currentPage ∧
      (run s actions).itemsPerPage ∈ ([5, 10, 25, 50] : List Int) := by
  induction actions generalizing s with
  | nil => exact h
  | cons a rest ih => exact ih (step s a) (step_invariant s a h)

/-- C17: every state reached from the initial state by a finite sequence of
the user actions (Next, Previous when enabled, choosing a page size among 5,
10, 25 and 50, editing a filter field, Reset Filters, sort clicks, the
favorites toggle) has `currentPage >= 1` and `itemsPerPage` in {5, 10, 25, 50}. -/
theorem reachable_page_invariant (actions : List Action) :
    1 ≤ (run initialState actions).currentPage ∧
    (run initialState actions).itemsPerPage ∈ ([5, 10, 25, 50] : List Int) :=
  run_invariant actions initialState ⟨le_refl _, by decide⟩

end CryptoTracker
